import Mathlib

/-!
Verification of the mock-server core (route matching, templating, validation,
response sequencing and response generation) against its specification.

The Python sources under `app/` are shallowly embedded: JSON-like dynamic
values become the inductive type `Value`, Python dicts become association
lists, and each relevant Python function becomes a computable Lean
definition that mirrors the source line by line.  Randomness and wall-clock
time are passed in explicitly as environment records, and Python exceptions
are modelled with `Except`.
-/

namespace MockServer

/-- JSON-like dynamic values (Python `Any` as produced by `request.json()`):
strings, ints, floats (modelled exactly as rationals), booleans, `None`,
lists and string-keyed dicts (association lists, insertion ordered as in
Python). -/
inductive Value where
  | str (s : String)
  | int (n : Int)
  | float (q : Rat)
  | bool (b : Bool)
  | null
  | arr (elems : List Value)
  | obj (fields : List (String × Value))

/-- Python truthiness (`bool(v)`) for the embedded values: `None`, `False`,
numeric zero, empty string, empty list and empty dict are falsy. -/
def pyTruthy : Value → Bool
  | .str s => s != ""
  | .int n => n != 0
  | .float q => q != 0
  | .bool b => b
  | .null => false
  | .arr l => !l.isEmpty
  | .obj l => !l.isEmpty

/-- Numeric view used by Python `==` and comparisons: `bool` is a subclass of
`int` in Python, so `True == 1` and `1 == 1.0` hold. -/
def pyNum : Value → Option Rat
  | .int n => some (n : Rat)
  | .float q => some q
  | .bool b => some (if b then 1 else 0)
  | _ => none

/-- Python dict lookup `d[k]` / `d.get(k)` on an association list (first
binding wins; duplicate keys never arise from the Python side). -/
def lookupStr (k : String) : List (String × Value) → Option Value
  | [] => none
  | (k', v) :: rest => if k' == k then some v else lookupStr k rest

mutual
/-- Python `==` on the embedded values: numeric values (int/float/bool)
compare by numeric value, strings by characters, lists pointwise, dicts by
equal size plus pointwise equality of values under shared keys (exactly
Python dict `==`, since Python dicts have no duplicate keys). -/
def pyEq : Value → Value → Bool
  | .str a, .str b => a == b
  | .null, .null => true
  | .arr a, .arr b => pyEqList a b
  | .obj a, .obj b => a.length == b.length && pyEqFields a b
  | a, b =>
    match pyNum a, pyNum b with
    | some x, some y => x == y
    | _, _ => false
termination_by v _ => sizeOf v

/-- Pointwise Python `==` on lists (lengths must agree). -/
def pyEqList : List Value → List Value → Bool
  | [], [] => true
  | x :: xs, y :: ys => pyEq x y && pyEqList xs ys
  | _, _ => false
termination_by l _ => sizeOf l

/-- Every key of `a` is present in `b` with a `pyEq`-equal value. -/
def pyEqFields : List (String × Value) → List (String × Value) → Bool
  | [], _ => true
  | (k, v) :: rest, b =>
    (match lookupStr k b with
     | some w => pyEq v w
     | none => false) && pyEqFields rest b
termination_by l _ => sizeOf l
end

/-- Python `k in d` for a string-keyed dict. -/
def hasKey (k : String) (d : List (String × Value)) : Bool :=
  (lookupStr k d).isSome

/-- Python `d[k] = v` on an association-list dict: overwrite the existing
binding in place, else append. -/
def dictSet (d : List (String × String)) (k v : String) : List (String × String) :=
  match d with
  | [] => [(k, v)]
  | (k', v') :: rest => if k' == k then (k, v) :: rest else (k', v') :: dictSet rest k v

/-- Lookup in a plain string-to-string dict (request headers, query params,
extracted path params). -/
def lookupS (k : String) : List (String × String) → Option String
  | [] => none
  | (k', v) :: rest => if k' == k then some v else lookupS k rest

/-! ### Python string primitives

Python `str.split(sep)`, `str.strip(chars)`, `str.count(sub)`,
`sub in s` and `str.replace(old, new)` are embedded on `List Char` so
that their defining recursions are structural and easy to reason about. -/

/-- Python `s.split(c)` for a one-character separator: the result always has
one more part than there are separators; `"".split(c) == ['']`. -/
def splitChar (c : Char) : List Char → List (List Char)
  | [] => [[]]
  | x :: xs =>
    match splitChar c xs with
    | [] => [[]]
    | y :: ys => if x == c then [] :: y :: ys else (x :: y) :: ys

/-- Python `s.strip(c)` for a one-character strip set: remove every leading
and trailing occurrence of `c`. -/
def stripChar (c : Char) (l : List Char) : List Char :=
  ((l.dropWhile (· == c)).reverse.dropWhile (· == c)).reverse

/-- Python `s.count(c)` for a single-character needle. -/
def countChar (c : Char) (l : List Char) : Nat :=
  l.countP (· == c)

/-- Does `hay` start with `needle`?  (Python `s.startswith(t)`.) -/
def startsWithL : List Char → List Char → Bool
  | _, [] => true
  | [], _ :: _ => false
  | a :: as, b :: bs => a == b && startsWithL as bs

/-- Python `needle in hay` substring containment. -/
def containsL (hay needle : List Char) : Bool :=
  match hay with
  | [] => startsWithL [] needle
  | _ :: t => startsWithL hay needle || containsL t needle

/-- Python `t in s` on strings. -/
def pyIn (needle hay : String) : Bool :=
  containsL hay.data needle.data

/-- One fuel-indexed step of Python `s.replace(old, new)`: scan left to
right, replacing each non-overlapping occurrence.  The fuel is the length
of the haystack, which suffices because `old` is never empty at any call
site (placeholders always contain braces). -/
def replaceAux (old new : List Char) : Nat → List Char → List Char
  | _, [] => []
  | 0, hay => hay
  | fuel + 1, a :: hay =>
    match old with
    | [] => a :: hay
    | o :: os =>
      if startsWithL (a :: hay) (o :: os) then
        new ++ replaceAux old new (fuel - os.length) ((a :: hay).drop (o :: os).length)
      else
        a :: replaceAux old new fuel hay

/-- Python `s.replace(old, new)` (all occurrences). -/
def pyReplace (s old new : String) : String :=
  ⟨replaceAux old.data new.data s.data.length s.data⟩

/-- Lexicographic comparison of strings by Unicode code points, exactly
Python `a < b` on `str`. -/
def strLtL : List Char → List Char → Bool
  | [], [] => false
  | [], _ :: _ => true
  | _ :: _, [] => false
  | a :: as, b :: bs => if a < b then true else if b < a then false else strLtL as bs

/-- Python `a < b` on strings. -/
def pyStrLt (a b : String) : Bool :=
  strLtL a.data b.data

/-- Python `s.startswith(t)`. -/
def pyStartsWith (s t : String) : Bool :=
  startsWithL s.data t.data

/-- Python `s.endswith(t)`. -/
def pyEndsWith (s t : String) : Bool :=
  startsWithL s.data.reverse t.data.reverse

/-- ASCII lowercasing of one character (Python `str.lower`; the server
only lowercases ASCII type names and header names). -/
def pyCharLower (c : Char) : Char :=
  if 'A' ≤ c && c ≤ 'Z' then Char.ofNat (c.toNat + 32) else c

/-- Python `s.lower()`. -/
def pyLower (s : String) : String :=
  ⟨s.data.map pyCharLower⟩

/-! ### Data model (`app/models/route.py`)

Pydantic models become structures.  Fields that no embedded operation ever
reads (`name`, `group`, `tags`, timestamps, the auth/oauth scaffolding and
the `sequence_id`/`sequence_description` annotations) are omitted. -/

/-- An expected header/query value: `Union[str, List[str]]`. -/
inductive MatchVal where
  | one (v : String)
  | many (vs : List String)

/-- `RouteMatchRule`. -/
structure RouteMatchRule where
  path : String
  methods : List String
  headers : Option (List (String × MatchVal)) := none
  queryParams : Option (List (String × MatchVal)) := none
  body : Option (List (String × Value)) := none
  useRegex : Bool := false

/-- `RouteResponse` (the response descriptor). -/
structure RouteResponse where
  statusCode : Int := 200
  headers : Option (List (String × String)) := none
  content : Value := .null
  contentType : String := "application/json"
  delay : Rat := 0
  delayRange : Option (Rat × Rat) := none
  simulateError : Bool := false
  errorType : Option String := none
  errorProbability : Rat := 1

/-- `RouteValidator` (the validation rule). -/
structure RouteValidator where
  requiredFields : Option (List String) := none
  fieldTypes : Option (List (String × String)) := none
  fieldRanges : Option (List (String × List Value)) := none
  validateJwt : Bool := false
  errorResponse : Option RouteResponse := none

/-- `Route`. -/
structure Route where
  id : String
  enabled : Bool := true
  matchRule : RouteMatchRule
  response : RouteResponse
  responseSequences : Option (List RouteResponse) := none
  enableSequence : Bool := false
  currentSequenceIndex : Nat := 0
  validator : Option RouteValidator := none

/-! ### Router (`app/services/router.py`)

Python's `re` module cannot be embedded; regex matching
(`Router._match_path` with `use_regex=True`) is therefore passed in as a
function parameter `reMatch pattern requestPath`, returning the group
dict of an anchored match or `none` (also `none` when the pattern fails to
compile).  Every claim here either quantifies over that parameter or
concerns only the `use_regex=False` branch, which never consults it. -/

/-- The opening brace character (`'\x7b'`) used by path parameters. -/
def braceOpen : Char := '\x7b'

/-- The closing brace character (`'\x7d'`). -/
def braceClose : Char := '\x7d'

/-- `route_part[1:-1]`: the parameter name inside a braced path segment. -/
def paramName (seg : String) : String :=
  ⟨(seg.data.drop 1).dropLast⟩

/-- Segmentation used by `Router._match_path`:
`path.strip('/').split('/')`. -/
def codeSegs (s : String) : List String :=
  (splitChar '/' (stripChar '/' s.data)).map fun l => ⟨l⟩

/-- The comparison loop of `Router._match_path`: walk
`zip(request_parts, route_parts)` left to right; a `*` route segment
accepts and halts; a braced segment captures the request segment as a path
parameter; any other segment must be equal to the request segment. -/
def matchSegsLoop : List String → List String → List (String × String) →
    Option (List (String × String))
  | [], _, acc => some acc
  | _ :: _, [], acc => some acc
  | rq :: rqs, rt :: rts, acc =>
    if rt == "*" then some acc
    else if pyStartsWith rt "\x7b" && pyEndsWith rt "\x7d" then
      matchSegsLoop rqs rts (dictSet acc (paramName rt) rq)
    else if rq == rt then matchSegsLoop rqs rts acc
    else none

/-- `Router._match_path` for `use_regex=False`: segment split, length
gate (skipped when the route has a `*` segment), comparison loop, then the
wildcard-position gate `len(request_parts) < route_parts.index('*')`. -/
def matchPathStd (requestPath routePath : String) : Option (List (String × String)) :=
  let requestParts := codeSegs requestPath
  let routeParts := codeSegs routePath
  if requestParts.length != routeParts.length && !routeParts.contains "*" then none
  else
    match matchSegsLoop requestParts routeParts [] with
    | none => none
    | some ps =>
      if routeParts.contains "*" then
        if requestParts.length < routeParts.findIdx (· == "*") then none else some ps
      else some ps

/-- `Router._match_path`. -/
def matchPath (reMatch : String → String → Option (List (String × String)))
    (requestPath routePath : String) (useRegex : Bool) :
    Option (List (String × String)) :=
  if useRegex then reMatch routePath requestPath
  else matchPathStd requestPath routePath

/-- The shared loop of `Router._match_headers` and
`Router._match_query_params`: each constrained key must be present and its
actual value must equal the expected string, or be contained in the
expected list. -/
def constraintLoop (actuals : List (String × String)) :
    List (String × MatchVal) → Bool
  | [] => true
  | (key, expected) :: rest =>
    match lookupS key actuals with
    | none => false
    | some actual =>
      (match expected with
       | .many vs => vs.contains actual
       | .one v => v == actual) && constraintLoop actuals rest

/-- `Router._match_headers` (`if not route_headers: return True`). -/
def matchHeaders (requestHeaders : List (String × String))
    (routeHeaders : Option (List (String × MatchVal))) : Bool :=
  match routeHeaders with
  | none => true
  | some l => if l.isEmpty then true else constraintLoop requestHeaders l

/-- `Router._match_query_params` — textually the same algorithm as
`_match_headers` in the source. -/
def matchQueryParams (requestParams : List (String × String))
    (routeParams : Option (List (String × MatchVal))) : Bool :=
  match routeParams with
  | none => true
  | some l => if l.isEmpty then true else constraintLoop requestParams l

mutual
/-- `Router._deep_match`: dict templates need every template key present
with a recursively matching value; list templates need equal length and
pointwise matches; scalars compare with Python `==`. -/
def deepMatch : Value → Value → Bool
  | a, .obj efields =>
    (match a with
     | .obj afields => deepMatchFields afields efields
     | _ => false)
  | a, .arr elist =>
    (match a with
     | .arr alist => alist.length == elist.length && deepMatchList alist elist
     | _ => false)
  | a, e => pyEq a e
termination_by _ e => sizeOf e

/-- The dict branch of `_deep_match`. -/
def deepMatchFields : List (String × Value) → List (String × Value) → Bool
  | _, [] => true
  | afields, (k, v) :: rest =>
    (match lookupStr k afields with
     | none => false
     | some av => deepMatch av v) && deepMatchFields afields rest
termination_by _ e => sizeOf e

/-- The list branch of `_deep_match` (`zip` truncates; the caller has
already compared lengths). -/
def deepMatchList : List Value → List Value → Bool
  | x :: xs, y :: ys => deepMatch x y && deepMatchList xs ys
  | _, _ => true
termination_by _ e => sizeOf e
end

/-- `Router._match_body`: no (or empty) body template is trivially
satisfied; otherwise a falsy or non-dict request body fails, and a dict
body is matched structurally. -/
def matchBody (requestBody : Option Value)
    (routeBody : Option (List (String × Value))) : Bool :=
  match routeBody with
  | none => true
  | some rb =>
    if rb.isEmpty then true
    else
      match requestBody with
      | none => false
      | some b =>
        if !pyTruthy b then false
        else
          match b with
          | .obj fields => deepMatch (.obj fields) (.obj rb)
          | _ => false

/-- `Router._route_specificity`, written with exact rational arithmetic
(the Python value is a float, but every term is a small multiple of 1/2,
which floats represent exactly). -/
def routeSpecificity (m : RouteMatchRule) : Rat :=
  ((splitChar '/' m.path.data).length : Rat)
    - (countChar braceOpen m.path.data : Rat) * 2
    - (countChar '*' m.path.data : Rat) * 3
    - (m.methods.length : Rat) * (1 / 2)
    + (match m.headers with
       | some l => if !l.isEmpty then (l.length : Rat) * 2 else 0
       | none => 0)
    + (match m.queryParams with
       | some l => if !l.isEmpty then (l.length : Rat) * 2 else 0
       | none => 0)
    + (match m.body with
       | some l => if !l.isEmpty then 5 else 0
       | none => 0)

/-- The sort key order of `Router.match_route`: ascending in the Python
tuple `(-specificity, id)`. -/
def routeKeyLe (a b : Route) : Bool :=
  decide (routeSpecificity b.matchRule < routeSpecificity a.matchRule) ||
    (decide (routeSpecificity a.matchRule = routeSpecificity b.matchRule) &&
      (pyStrLt a.id b.id || a.id == b.id))

/-- Ordered insertion for `sortRoutes`. -/
def insertRoute (x : Route) : List Route → List Route
  | [] => [x]
  | y :: t => if routeKeyLe y x then y :: insertRoute x t else x :: y :: t

/-- `sorted(..., key=lambda x: (-specificity(x), x.id))`: insertion sort.
On route sets with distinct ids the key order is total and antisymmetric,
so any correct sort — Python's timsort included — produces this exact
list. -/
def sortRoutes : List Route → List Route
  | [] => []
  | x :: t => insertRoute x (sortRoutes t)

/-- The candidate loop of `Router.match_route`: predicates tested in the
order method membership, path, headers, query, body — first full pass
wins. -/
def scanRoutes (reMatch : String → String → Option (List (String × String)))
    (method path : String) (headers queryParams : List (String × String))
    (body : Option Value) : List Route → Option (Route × List (String × String))
  | [] => none
  | r :: rest =>
    if !r.matchRule.methods.contains method then
      scanRoutes reMatch method path headers queryParams body rest
    else
      match matchPath reMatch path r.matchRule.path r.matchRule.useRegex with
      | none => scanRoutes reMatch method path headers queryParams body rest
      | some pathParams =>
        if !matchHeaders headers r.matchRule.headers then
          scanRoutes reMatch method path headers queryParams body rest
        else if !matchQueryParams queryParams r.matchRule.queryParams then
          scanRoutes reMatch method path headers queryParams body rest
        else if !matchBody body r.matchRule.body then
          scanRoutes reMatch method path headers queryParams body rest
        else some (r, pathParams)

/-- `Router.match_route`: filter to enabled routes, sort by descending
specificity with route id as ascending tie-break, scan for the first full
match. -/
def matchRoute (reMatch : String → String → Option (List (String × String)))
    (routes : List Route) (method path : String)
    (headers queryParams : List (String × String)) (body : Option Value) :
    Option (Route × List (String × String)) :=
  scanRoutes reMatch method path headers queryParams body
    (sortRoutes (routes.filter (·.enabled)))

/-! ### Validator (`app/services/validator.py`)

JWT signature checking (`app.core.security.verify_token`, backed by the
`jwt` library) is cryptographic and is passed in as a function parameter
`verifyToken`; every claim about the validator has `validate_jwt = False`
and never reaches it. -/

/-- `Validator._validate_type`.  Python `isinstance(True, int)` is `True`
(bool is a subclass of int), so booleans satisfy `integer` and `number`. -/
def validateType (value : Value) (expectedType : String) : Bool :=
  let t := pyLower expectedType
  if t == "string" then (match value with | .str _ => true | _ => false)
  else if t == "number" then (match value with | .int _ => true | .float _ => true | .bool _ => true | _ => false)
  else if t == "integer" then (match value with | .int _ => true | .bool _ => true | _ => false)
  else if t == "boolean" then (match value with | .bool _ => true | _ => false)
  else if t == "array" then (match value with | .arr _ => true | _ => false)
  else if t == "object" then (match value with | .obj _ => true | _ => false)
  else if t == "null" then (match value with | .null => true | _ => false)
  else true

/-- `Validator._validate_range`: a two-element all-numeric list is an
inclusive `[min, max]` interval (for numeric values); otherwise membership
in the list (enum case); otherwise a one-element numeric list is a lower
bound.  `isinstance(·, (int, float))` again accepts booleans. -/
def validateRange (value : Value) (rangeValues : List Value) : Bool :=
  if rangeValues.isEmpty then true
  else
    let enumOrMin : Bool :=
      rangeValues.any (fun e => pyEq value e) ||
        (match rangeValues with
         | [mn] =>
           (match pyNum mn, pyNum value with
            | some m, some v => decide (m ≤ v)
            | _, _ => false)
         | _ => false)
    match rangeValues with
    | [mn, mx] =>
      (match pyNum mn, pyNum mx with
       | some a, some b =>
         (match pyNum value with
          | some v => decide (a ≤ v) && decide (v ≤ b)
          | none => enumOrMin)
       | _, _ => enumOrMin)
    | _ => enumOrMin

/-- Python `", ".join(fields)`. -/
def joinComma : List String → String
  | [] => ""
  | [x] => x
  | x :: y :: t => x ++ ", " ++ joinComma (y :: t)

/-- The `field_types` loop of `Validator.validate_request`: first failing
declared type (for a field present in the body) yields its message. -/
def typesLoop (body : List (String × Value)) : List (String × String) → Option String
  | [] => none
  | (field, expectedType) :: rest =>
    match lookupStr field body with
    | some v =>
      if !validateType v expectedType then
        some ("字段 " ++ field ++ " 类型错误，期望类型: " ++ expectedType)
      else typesLoop body rest
    | none => typesLoop body rest

/-- The `field_ranges` loop of `Validator.validate_request`. -/
def rangesLoop (body : List (String × Value)) : List (String × List Value) → Option String
  | [] => none
  | (field, rangeValues) :: rest =>
    match lookupStr field body with
    | some v =>
      if !validateRange v rangeValues then some ("字段 " ++ field ++ " 值超出范围")
      else rangesLoop body rest
    | none => rangesLoop body rest

/-- The `required_fields` stage of `Validator.validate_request`: `None`
when the stage does not fail (absent/empty rule list, or all fields
present), otherwise the failing result. -/
def requiredCheck (v : RouteValidator) (body : Option (List (String × Value))) :
    Option (Bool × Option String) :=
  match v.requiredFields with
  | none => none
  | some req =>
    if req.isEmpty then none
    else
      match body with
      | none => some (false, some ("请求体不能为空，缺少必填字段: " ++ joinComma req))
      | some b =>
        if b.isEmpty then
          some (false, some ("请求体不能为空，缺少必填字段: " ++ joinComma req))
        else
          let missing := req.filter (fun f => !hasKey f b)
          if missing.isEmpty then none
          else some (false, some ("缺少必填字段: " ++ joinComma missing))

/-- The `field_types` stage (`if validator.field_types and body:`). -/
def typesCheck (v : RouteValidator) (body : Option (List (String × Value))) :
    Option String :=
  match v.fieldTypes with
  | some fts =>
    if !fts.isEmpty && (match body with | some b => !b.isEmpty | none => false) then
      typesLoop (body.getD []) fts
    else none
  | none => none

/-- The `field_ranges` stage (`if validator.field_ranges and body:`). -/
def rangesCheck (v : RouteValidator) (body : Option (List (String × Value))) :
    Option String :=
  match v.fieldRanges with
  | some frs =>
    if !frs.isEmpty && (match body with | some b => !b.isEmpty | none => false) then
      rangesLoop (body.getD []) frs
    else none
  | none => none

/-- The `validate_jwt` stage. -/
def jwtCheck (verifyToken : String → Bool) (v : RouteValidator)
    (headers : Option (List (String × String))) : Bool × Option String :=
  if v.validateJwt then
    match headers with
    | none => (false, some "缺少HTTP头部")
    | some hs =>
      if hs.isEmpty then (false, some "缺少HTTP头部")
      else
        match lookupS "Authorization" hs with
        | none => (false, some "缺少Authorization头部")
        | some auth =>
          if !(pyStartsWith auth "Bearer ") then
            (false, some "Authorization头部格式错误")
          else
            let token := ((auth.splitOn " ").getD 1 "")
            if !verifyToken token then (false, some "无效的JWT令牌")
            else (true, none)
  else (true, none)

/-- `Validator.validate_request`: required fields, then field types, then
field ranges, then the JWT check, short-circuiting on the first failure
with its message. -/
def validateRequest (verifyToken : String → Bool) (v : RouteValidator)
    (body : Option (List (String × Value)))
    (headers : Option (List (String × String))) : Bool × Option String :=
  match requiredCheck v body with
  | some r => r
  | none =>
    match typesCheck v body with
    | some msg => (false, some msg)
    | none =>
      match rangesCheck v body with
      | some msg => (false, some msg)
      | none => jwtCheck verifyToken v headers

/-! ### Templater (`app/services/templater.py`)

Randomness (`random.randint`, `random.choices`, `random.choice`) and the
clock (`time.time`, `time.strftime`) are modelled by an environment record
`TEnv` fixing the values those calls would produce.  The Python code can
raise `AttributeError` — it calls `.items()` on whatever sits under the
`path`/`query`/`body` context keys — so string rendering returns
`Except PyErr String`. -/

/-- The observable Python exception of the templater. -/
inductive PyErr where
  | attributeError

/-- The random/clock draws made by `Templater._render_string`. -/
structure TEnv where
  randInt : Int := 1
  randString : String := ""
  randBool : Bool := true
  timestamp : Int := 0
  now : String := ""

/-- The single-quote character, used by Python `repr` of strings. -/
def squote : Char := Char.ofNat 39

mutual
/-- Python `repr` on the embedded values (best effort for floats, whose
shortest-roundtrip formatting is not reproduced; no verified statement
evaluates it on floats). -/
def pyRepr : Value → String
  | .str s => String.singleton squote ++ s ++ String.singleton squote
  | .int n => toString n
  | .float q => toString q.num ++ (if q.den == 1 then ".0" else "/" ++ toString q.den)
  | .bool b => if b then "True" else "False"
  | .null => "None"
  | .arr elems => "[" ++ joinComma (pyReprList elems) ++ "]"
  | .obj fields => "\x7b" ++ joinComma (pyReprFields fields) ++ "\x7d"
termination_by v => sizeOf v

/-- `repr` of the elements of a list. -/
def pyReprList : List Value → List String
  | [] => []
  | v :: rest => pyRepr v :: pyReprList rest
termination_by l => sizeOf l

/-- `repr` of the entries of a dict. -/
def pyReprFields : List (String × Value) → List String
  | [] => []
  | (k, v) :: rest =>
    (String.singleton squote ++ k ++ String.singleton squote ++ ": " ++ pyRepr v)
      :: pyReprFields rest
termination_by l => sizeOf l
end

/-- Python `str(v)`: identity on strings, `repr` on everything else (for
int, float, bool, `None`, lists and dicts, `str` and `repr` agree). -/
def pyStr : Value → String
  | .str s => s
  | v => pyRepr v

/-- Python `\w` (ASCII range; the placeholders used by the server are all
ASCII). -/
def isWordChar (c : Char) : Bool :=
  c.isAlphanum || c == '_'

/-- Python `[\w-]`. -/
def isWordDash (c : Char) : Bool :=
  isWordChar c || c == '-'

/-- Greedy parse of `(?:[\w-]+\.)*[\w-]+` with the regex's backtracking
folded in: after a component, a dot is consumed only when a `[\w-]`
character follows (otherwise the regex would have to end the group here).
Returns the matched text and the remainder.  Fuel-indexed (fuel =
remaining length) to keep the definition structurally recursive. -/
def parseComps : Nat → List Char → Option (List Char × List Char)
  | 0, _ => none
  | fuel + 1, l =>
    let comp := l.takeWhile isWordDash
    if comp.isEmpty then none
    else
      let rest := l.drop comp.length
      match rest with
      | '.' :: d :: _ =>
        if isWordDash d then
          match parseComps fuel (rest.drop 1) with
          | some (txt, rem) => some (comp ++ '.' :: txt, rem)
          | none => none
        else some (comp, rest)
      | _ => some (comp, rest)

/-- Try to match the placeholder regex
`\{\{(\w+\.(?:[\w-]+\.)*[\w-]+)\}\}` at the head of `l`; on success return
the captured dotted path and the total matched length. -/
def parseDottedAt (l : List Char) : Option (List Char × Nat) :=
  match l with
  | c1 :: c2 :: rest =>
    if c1 == braceOpen && c2 == braceOpen then
      let first := rest.takeWhile isWordChar
      if first.isEmpty then none
      else
        match rest.drop first.length with
        | '.' :: after =>
          (match parseComps after.length after with
           | some (txt, rem) =>
             (match rem with
              | d1 :: d2 :: _ =>
                if d1 == braceClose && d2 == braceClose then
                  let grp := first ++ '.' :: txt
                  some (grp, 2 + grp.length + 2)
                else none
              | _ => none)
           | none => none)
        | _ => none
    else none
  | _ => none

/-- `re.findall` of the placeholder pattern: scan left to right, emitting
each non-overlapping match's captured group.  Fuel-indexed (fuel =
remaining length; every step consumes at least one character). -/
def scanDotted : Nat → List Char → List String
  | 0, _ => []
  | _, [] => []
  | fuel + 1, l =>
    match parseDottedAt l with
    | some (grp, consumed) => (⟨grp⟩ : String) :: scanDotted fuel (l.drop consumed)
    | none => scanDotted fuel l.tail

/-- Case-insensitive dict scan (`k.lower() == key.lower()`), used for
header lookups. -/
def ciLookup (key : String) : List (String × Value) → Option Value
  | [] => none
  | (k, v) :: rest => if pyLower k == pyLower key then some v else ciLookup key rest

/-- The nested-key traversal of `Templater._render_string`: descend
through dicts, exact key first, then case-insensitive; any failure (or a
non-dict midway) aborts the placeholder. -/
def traverse : Value → List String → Option Value
  | cur, [] => some cur
  | cur, key :: rest =>
    match cur with
    | .obj fields =>
      (match lookupStr key fields with
       | some v => traverse v rest
       | none =>
         match ciLookup key fields with
         | some v => traverse v rest
         | none => none)
    | _ => none

/-- The request context (`context` dict built in `mock_handler`). -/
abbrev Context := List (String × Value)

/-- The loop over `re.findall` matches in `Templater._render_string`:
resolve each dotted path against the context and replace every occurrence
of the placeholder with `str(value)`; unresolved placeholders are left
alone. -/
def complexPass (ctx : Context) : List String → String → String
  | [], result => result
  | m :: rest, result =>
    let placeholder := "\x7b\x7b" ++ m ++ "\x7d\x7d"
    match m.splitOn "." with
    | nsName :: nested1 :: nestedRest =>
      (match lookupStr nsName ctx with
       | none => complexPass ctx rest result
       | some base =>
         match traverse base (nested1 :: nestedRest) with
         | none => complexPass ctx rest result
         | some cur =>
           let result' :=
             if pyIn placeholder result then pyReplace result placeholder (pyStr cur)
             else result
           complexPass ctx rest result')
    | _ => complexPass ctx rest result

/-- One fold step of a simple-variable pass:
`if placeholder in result: result.replace(placeholder, str(value))`. -/
def simpleLoop (nsName : String) (result : String) :
    List (String × Value) → String
  | [] => result
  | (key, value) :: rest =>
    let placeholder := "\x7b\x7b" ++ nsName ++ "." ++ key ++ "\x7d\x7d"
    let result' :=
      if pyIn placeholder result then pyReplace result placeholder (pyStr value)
      else result
    simpleLoop nsName result' rest

/-- A simple-variable pass (`path`, `query` or `body`):
`for key, value in context[ns].items(): ...` — note that `.items()` on a
non-dict raises `AttributeError`. -/
def simplePass (nsName : String) (ctx : Context) (result : String) :
    Except PyErr String :=
  match lookupStr nsName ctx with
  | none => .ok result
  | some (.obj fields) => .ok (simpleLoop nsName result fields)
  | some _ => .error .attributeError

/-- A builtin replacement pass (`random.*`, `timestamp`, `now`). -/
def builtinPass (placeholder replacement result : String) : String :=
  if pyIn placeholder result then pyReplace result placeholder replacement
  else result

/-- `Templater._render_string`: the dotted-placeholder pass, the three
simple passes (each of which can raise), then the builtin passes. -/
def renderString (env : TEnv) (template : String) (ctx : Context) :
    Except PyErr String :=
  let found := scanDotted template.data.length template.data
  let r1 := complexPass ctx found template
  match simplePass "path" ctx r1 with
  | .error e => .error e
  | .ok r2 =>
    match simplePass "query" ctx r2 with
    | .error e => .error e
    | .ok r3 =>
      match simplePass "body" ctx r3 with
      | .error e => .error e
      | .ok r4 =>
        let r5 := builtinPass "\x7b\x7brandom.int\x7d\x7d" (toString env.randInt) r4
        let r6 := builtinPass "\x7b\x7brandom.string\x7d\x7d" env.randString r5
        let r7 := builtinPass "\x7b\x7brandom.boolean\x7d\x7d"
          (if env.randBool then "True" else "False") r6
        let r8 := builtinPass "\x7b\x7btimestamp\x7d\x7d" (toString env.timestamp) r7
        .ok (builtinPass "\x7b\x7bnow\x7d\x7d" env.now r8)

mutual
/-- `Templater._render_value`: strings are rendered, dicts and lists are
rendered recursively preserving structure, all other leaves pass through
unchanged. -/
def renderValue (env : TEnv) : Value → Context → Except PyErr Value
  | .str s, ctx => (renderString env s ctx).map .str
  | .obj fields, ctx => (renderFields env fields ctx).map .obj
  | .arr elems, ctx => (renderList env elems ctx).map .arr
  | v, _ => .ok v
termination_by v _ => sizeOf v

/-- Field-wise rendering of a dict. -/
def renderFields (env : TEnv) : List (String × Value) → Context →
    Except PyErr (List (String × Value))
  | [], _ => .ok []
  | (k, v) :: rest, ctx => do
    let v' ← renderValue env v ctx
    let rest' ← renderFields env rest ctx
    return (k, v') :: rest'
termination_by l _ => sizeOf l

/-- Element-wise rendering of a list. -/
def renderList (env : TEnv) : List Value → Context → Except PyErr (List Value)
  | [], _ => .ok []
  | v :: rest, ctx => do
    let v' ← renderValue env v ctx
    let rest' ← renderList env rest ctx
    return v' :: rest'
termination_by l _ => sizeOf l
end

/-- `Templater.render_response` (the `context is None` guard is the
caller's concern; the context is always explicit here). -/
def renderResponse (env : TEnv) (content : Value) (ctx : Context) :
    Except PyErr Value :=
  renderValue env content ctx

/-! ### Sequencing in `mock_handler` (`app/api/mock.py`, lines 124–141)

On a matched request the handler picks the response to use: when
sequencing is enabled, the sequence list is non-empty and the cursor is in
range, it selects the response at the cursor, advances the cursor
cyclically, persists the route (`db_storage.save_route`) and updates the
in-memory router — all *before* `generate_response` runs.  The ordered
side effects are recorded as an event list. -/

/-- The observable side effects of the sequencing block, in program
order. -/
inductive SeqEvent where
  | saveRoute (r : Route)
  | updateRouter (r : Route)
  | generate (resp : RouteResponse)

/-- The sequencing block: returns the response to use and the updated
route. -/
def handleSequence (route : Route) : RouteResponse × Route :=
  if route.enableSequence then
    match route.responseSequences with
    | some seqs =>
      if !seqs.isEmpty then
        let currentIndex := route.currentSequenceIndex
        if h : currentIndex < seqs.length then
          (seqs.get ⟨currentIndex, h⟩,
           { route with currentSequenceIndex := (currentIndex + 1) % seqs.length })
        else (route.response, route)
      else (route.response, route)
    | none => (route.response, route)
  else (route.response, route)

/-- Does the sequencing block fire for this route?  (The conjunction of
the source's `if` guards.) -/
def seqActive (route : Route) : Bool :=
  route.enableSequence &&
    (match route.responseSequences with
     | some seqs => !seqs.isEmpty && route.currentSequenceIndex < seqs.length
     | none => false)

/-- The event trace of one matched request's sequencing-plus-generation
section: persist and router-update happen before the response is
generated; an inactive sequencing block only generates. -/
def seqTrace (route : Route) : List SeqEvent :=
  let (responseToUse, route') := handleSequence route
  if seqActive route then [.saveRoute route', .updateRouter route', .generate responseToUse]
  else [.generate responseToUse]

/-- The route after `k` matched requests. -/
def runSeq (route : Route) : Nat → Route
  | 0 => route
  | k + 1 => (handleSequence (runSeq route k)).2

/-- The response selected by the `k`-th matched request (0-based). -/
def selectionAt (route : Route) (k : Nat) : RouteResponse :=
  (handleSequence (runSeq route k)).1

/-! ### Reachable route states (`app/api/admin.py` + `app/api/mock.py`)

The transitions that touch a route's sequencing state:
`create_route` (admin.py:262) sets `current_sequence_index=0` and
`enabled=True`; `update_route_handler` (admin.py:340–353) may replace the
sequence list and flags but copies `current_sequence_index` from the
existing route unchanged; `reset_sequence_counter` (admin.py:392) zeroes
the cursor; and a matched request advances it via `handleSequence`. -/

/-- Route states reachable through the admin API and matched requests. -/
inductive Reachable : Route → Prop where
  | created (id : String) (mr : RouteMatchRule) (resp : RouteResponse)
      (seqs : Option (List RouteResponse)) (en : Bool) (vald : Option RouteValidator) :
      Reachable ⟨id, true, mr, resp, seqs, en, 0, vald⟩
  | updated (r : Route) (en' : Bool) (mr' : RouteMatchRule) (resp' : RouteResponse)
      (seqs' : Option (List RouteResponse)) (enSeq' : Bool)
      (vald' : Option RouteValidator) :
      Reachable r →
      Reachable { r with enabled := en', matchRule := mr', response := resp',
                         responseSequences := seqs', enableSequence := enSeq',
                         validator := vald' }
  | reset (r : Route) : Reachable r → Reachable { r with currentSequenceIndex := 0 }
  | advanced (r : Route) : Reachable r → Reachable (handleSequence r).2

/-- Reachability restricted to admin updates that keep the (preserved)
cursor within the replaced sequence list (or make the list absent/empty).
This is the weakening the counterexample to C4 forces. -/
inductive ReachableSafe : Route → Prop where
  | created (id : String) (mr : RouteMatchRule) (resp : RouteResponse)
      (seqs : Option (List RouteResponse)) (en : Bool) (vald : Option RouteValidator) :
      ReachableSafe ⟨id, true, mr, resp, seqs, en, 0, vald⟩
  | updated (r : Route) (en' : Bool) (mr' : RouteMatchRule) (resp' : RouteResponse)
      (seqs' : Option (List RouteResponse)) (enSeq' : Bool)
      (vald' : Option RouteValidator) :
      ReachableSafe r →
      (match seqs' with
       | some l => l = [] ∨ r.currentSequenceIndex < l.length
       | none => True) →
      ReachableSafe { r with enabled := en', matchRule := mr', response := resp',
                             responseSequences := seqs', enableSequence := enSeq',
                             validator := vald' }
  | reset (r : Route) : ReachableSafe r → ReachableSafe { r with currentSequenceIndex := 0 }
  | advanced (r : Route) : ReachableSafe r → ReachableSafe (handleSequence r).2

/-! ### Response generation (`generate_response`, `app/api/mock.py` 184–251)

`asyncio.sleep` calls are recorded in order as a list of durations; the
two `random.random()` draws (delay range, error Bernoulli trial) come from
the environment. -/

/-- Random draws for one `generate_response` call. -/
structure GenEnv where
  delayRand : Rat := 0
  errorRand : Rat := 0
  tenv : TEnv := {}

/-- The body of the final FastAPI response: `JSONResponse` content or
`PlainTextResponse` text. -/
inductive BodyContent where
  | json (v : Value)
  | text (s : String)

/-- The final response descriptor produced by `generate_response`. -/
structure GenResponse where
  statusCode : Int
  content : BodyContent
  headers : List (String × String) := []
  appliedDelay : Rat := 0

/-- The delay block of `generate_response`: a positive fixed `delay` is
slept as-is; otherwise a `delay_range = [min, max]` draws
`(max-min)*random() + min`.  Returns (sleep calls, applied delay). -/
def delaySim (genv : GenEnv) (routeResponse : RouteResponse) : List Rat × Rat :=
  if routeResponse.delay > 0 then ([routeResponse.delay], routeResponse.delay)
  else
    match routeResponse.delayRange with
    | some (minDelay, maxDelay) =>
      let d := (maxDelay - minDelay) * genv.delayRand + minDelay
      ([d], d)
    | none => ([], (0 : Rat))

/-- `generate_response`: delay simulation, error-scenario simulation
(short-circuiting with canned, untemplated bodies), then templating and
response construction.  Returns the ordered `asyncio.sleep` durations and
the outcome (`Except` because templating can raise). -/
def generateResponse (genv : GenEnv) (routeResponse : RouteResponse) (ctx : Context) :
    List Rat × Except PyErr GenResponse :=
  let (sleeps0, appliedDelay) := delaySim genv routeResponse
  let canned : Option (List Rat × Except PyErr GenResponse) :=
    if routeResponse.simulateError then
      if genv.errorRand ≤ routeResponse.errorProbability then
        if routeResponse.errorType == some "timeout" then
          some (sleeps0 ++ [30],
            .ok ⟨408, .json (.obj [("error", .str "Request Timeout")]), [],
                 appliedDelay + 30⟩)
        else if routeResponse.errorType == some "network_error" then
          some (sleeps0,
            .ok ⟨503, .json (.obj [("error", .str "Service Unavailable")]), [],
                 appliedDelay⟩)
        else if routeResponse.errorType == some "server_error" then
          some (sleeps0,
            .ok ⟨500, .json (.obj [("error", .str "Internal Server Error")]), [],
                 appliedDelay⟩)
        else none
      else none
    else none
  match canned with
  | some out => out
  | none =>
    match renderResponse genv.tenv routeResponse.content ctx with
    | .error e => (sleeps0, .error e)
    | .ok rendered =>
      if routeResponse.contentType == "application/json" then
        (sleeps0, .ok ⟨routeResponse.statusCode, .json rendered,
                       routeResponse.headers.getD [], appliedDelay⟩)
      else
        (sleeps0, .ok ⟨routeResponse.statusCode, .text (pyStr rendered),
                       routeResponse.headers.getD [], appliedDelay⟩)

/-! ### Spec-side definitions

These follow the specification's words (not the source) and exist only to
be compared against the embedded code, for the two claims of refinement
flavour (C2, C6). -/

/-- The specification's segmentation: split on `/` "ignoring
leading/trailing empty segments".  (The code instead strips slash
characters first; the two differ on all-slash paths such as `"/"`.) -/
def claimSegs (s : String) : List String :=
  let parts := (splitChar '/' s.data).map fun l => (⟨l⟩ : String)
  ((parts.dropWhile (· == "")).reverse.dropWhile (· == "")).reverse

/-- Is a segment a `\x7bname\x7d` path-parameter segment? -/
def isParamSeg (s : String) : Bool :=
  pyStartsWith s "\x7b" && pyEndsWith s "\x7d"

/-- The specificity formula exactly as the specification states it:
(count of path segments) − 2×(count of param segments) − 3×(count of `*`
wildcard segments) − 0.5×(methods) + 2×(header constraints) + 2×(query
constraints) + 5×(body constraint present). -/
def specScoreClaim (m : RouteMatchRule) : Rat :=
  let segs := claimSegs m.path
  (segs.length : Rat)
    - 2 * ((segs.countP isParamSeg : Nat) : Rat)
    - 3 * ((segs.countP (· == "*") : Nat) : Rat)
    - (m.methods.length : Rat) * (1 / 2)
    + 2 * (match m.headers with | some l => (l.length : Rat) | none => 0)
    + 2 * (match m.queryParams with | some l => (l.length : Rat) | none => 0)
    + (if m.body.isSome then 5 else 0)

/-- The claim's path-matching algorithm on segment lists: equal segment
counts required unless the route has a `*` segment; segments compared left
to right with `*` accepting and halting, braced segments capturing, and
literals comparing exactly; the wildcard's position must not exceed the
request's segment count. -/
def specMatchSegs (requestParts routeParts : List String) :
    Option (List (String × String)) :=
  if routeParts.contains "*" then
    if requestParts.length < routeParts.findIdx (· == "*") then none
    else matchSegsLoop requestParts routeParts []
  else if requestParts.length != routeParts.length then none
  else matchSegsLoop requestParts routeParts []

/-- The claim's non-regex path matcher, with the claim's own segmentation
("ignoring leading/trailing empty segments"). -/
def specMatchPathClaim (requestPath routePath : String) :
    Option (List (String × String)) :=
  specMatchSegs (claimSegs requestPath) (claimSegs routePath)

/-- Concrete sequenced route used to witness C3 and C4. -/
def wSeqRule : RouteMatchRule := { path := "/s", methods := ["GET"] }

/-- First sequenced response of the witness route. -/
def wResp1 : RouteResponse := { statusCode := 201 }

/-- Second sequenced response of the witness route. -/
def wResp2 : RouteResponse := { statusCode := 202 }

/-- A sequenced route with two responses and cursor 0. -/
def wSeqRoute : Route :=
  { id := "s", matchRule := wSeqRule, response := {},
    responseSequences := some [wResp1, wResp2], enableSequence := true }

/-- A descriptor that always simulates a server error. -/
def wErrResp : RouteResponse :=
  { simulateError := true, errorType := some "server_error", errorProbability := 1 }

mutual
/-- No string leaf of the value contains the placeholder opener
`\x7b\x7b`. -/
def noBraces : Value → Bool
  | .str s => !pyIn "\x7b\x7b" s
  | .arr l => noBracesList l
  | .obj l => noBracesFields l
  | _ => true
termination_by v => sizeOf v

/-- `noBraces` over the elements of a list. -/
def noBracesList : List Value → Bool
  | [] => true
  | v :: rest => noBraces v && noBracesList rest
termination_by l => sizeOf l

/-- `noBraces` over the values of a dict. -/
def noBracesFields : List (String × Value) → Bool
  | [] => true
  | (_, v) :: rest => noBraces v && noBracesFields rest
termination_by l => sizeOf l
end

/-- The context entries that the simple-variable passes iterate over are
(absent or) objects — exactly the condition under which the Python code
cannot hit the `.items()` `AttributeError`. -/
def ctxSafe (ctx : Context) : Bool :=
  ["path", "query", "body"].all fun ns =>
    match lookupStr ns ctx with
    | none => true
    | some (.obj _) => true
    | some _ => false

/-- The conjunction of the five predicates of `Router.match_route`, in
their order: method membership, path, headers, query params, body. -/
def fullMatch (reMatch : String → String → Option (List (String × String)))
    (method path : String) (headers queryParams : List (String × String))
    (body : Option Value) (r : Route) : Bool :=
  r.matchRule.methods.contains method &&
  (matchPath reMatch path r.matchRule.path r.matchRule.useRegex).isSome &&
  matchHeaders headers r.matchRule.headers &&
  matchQueryParams queryParams r.matchRule.queryParams &&
  matchBody body r.matchRule.body

/-- Less specific witness route: two path parameters. -/
def wRouteA : Route :=
  { id := "a", enabled := true,
    matchRule := { path := "/api/\x7bname\x7d/\x7bid\x7d", methods := ["GET"] },
    response := {} }

/-- More specific witness route: one path parameter. -/
def wRouteB : Route :=
  { id := "b", enabled := true,
    matchRule := { path := "/api/users/\x7bid\x7d", methods := ["GET"] },
    response := {} }

/-! ## Claim C10 — booleans accepted where integer/number is declared -/

/-- C10: for every validation rule whose `field_types` maps a key to
`"integer"` or `"number"`, a boolean value at that key passes the type
check, because Python's `isinstance(value, int)` is true for `bool`.
Stated both on `_validate_type` itself and through the `field_types` loop
of `validate_request`. -/
theorem c10_boolean_passes_integer_and_number :
    ∀ (b : Bool) (k : String) (rest : List (String × Value)),
      validateType (.bool b) "integer" = true ∧
      validateType (.bool b) "number" = true ∧
      typesLoop ((k, Value.bool b) :: rest) [(k, "integer")] = none ∧
      typesLoop ((k, Value.bool b) :: rest) [(k, "number")] = none := by
  intro b k rest
  have hInt : validateType (.bool b) "integer" = true := by cases b <;> rfl
  have hNum : validateType (.bool b) "number" = true := by cases b <;> rfl
  refine ⟨hInt, hNum, ?_, ?_⟩ <;>
    simp [typesLoop, lookupStr, hInt, hNum]

/-! ## Claim C2 — the specificity formula -/

/-- `splitChar` always returns one more part than there are separators. -/
theorem splitChar_length (c : Char) (l : List Char) :
    (splitChar c l).length = countChar c l + 1 := by
  induction l with
  | nil => simp [splitChar, countChar]
  | cons x xs ih =>
    cases hsp : splitChar c xs with
    | nil => simp [hsp] at ih
    | cons y ys =>
      by_cases hx : x == c
      · simp [splitChar, hsp, hx, countChar] at *
        omega
      · simp [splitChar, hsp, hx, countChar] at *
        omega

/-- C2 counterexample: for the match rule
`path = "/api/users/\x7bid\x7d", methods = [GET]` the code's specificity is
`3/2` — `len(path.split('/')) = 4` counts the empty leading segment — while
the specification's formula (three path segments, one `\x7bparam\x7d`
segment, one method) gives `1/2`. -/
theorem c2_counterexample :
    routeSpecificity { path := "/api/users/\x7bid\x7d", methods := ["GET"] } = 3 / 2 ∧
    specScoreClaim { path := "/api/users/\x7bid\x7d", methods := ["GET"] } = 1 / 2 ∧
    routeSpecificity { path := "/api/users/\x7bid\x7d", methods := ["GET"] } ≠
      specScoreClaim { path := "/api/users/\x7bid\x7d", methods := ["GET"] } := by
  have h1 : (splitChar '/' ("/api/users/\x7bid\x7d" : String).data).length = 4 := by decide
  have h2 : countChar braceOpen ("/api/users/\x7bid\x7d" : String).data = 1 := by decide
  have h3 : countChar '*' ("/api/users/\x7bid\x7d" : String).data = 0 := by decide
  have h4 : claimSegs "/api/users/\x7bid\x7d" = ["api", "users", "\x7bid\x7d"] := by decide
  have hc : routeSpecificity { path := "/api/users/\x7bid\x7d", methods := ["GET"] } = 3 / 2 := by
    simp only [routeSpecificity, h1, h2, h3]
    norm_num
  have h5 : (["api", "users", "\x7bid\x7d"] : List String).countP isParamSeg = 1 := by decide
  have h6 : (["api", "users", "\x7bid\x7d"] : List String).countP (· == "*") = 0 := by decide
  have hs : specScoreClaim { path := "/api/users/\x7bid\x7d", methods := ["GET"] } = 1 / 2 := by
    simp only [specScoreClaim, h4, h5, h6]
    norm_num
  refine ⟨hc, hs, ?_⟩
  rw [hc, hs]
  norm_num

/-- C2 amended: the specificity score equals `1 + (count of '/' characters
in the path)` (the length of `path.split('/')`, so paths with a leading
slash count one extra empty segment) minus `2×(count of '\x7b'
characters)` minus `3×(count of '*' characters)` — character counts, not
segment counts — minus `0.5×(number of allowed methods)`, plus
`2×(header constraints)` and `2×(query constraints)` when those maps are
present and non-empty, plus `5` when a non-empty body template is
present. -/
theorem c2_amended_specificity (m : RouteMatchRule) :
    routeSpecificity m =
      ((countChar '/' m.path.data : Nat) : Rat) + 1
        - (countChar braceOpen m.path.data : Rat) * 2
        - (countChar '*' m.path.data : Rat) * 3
        - (m.methods.length : Rat) * (1 / 2)
        + (match m.headers with
           | some l => if !l.isEmpty then (l.length : Rat) * 2 else 0
           | none => 0)
        + (match m.queryParams with
           | some l => if !l.isEmpty then (l.length : Rat) * 2 else 0
           | none => 0)
        + (match m.body with
           | some l => if !l.isEmpty then 5 else 0
           | none => 0) := by
  unfold routeSpecificity
  rw [splitChar_length]
  push_cast
  ring

/-! ## Claim C6 — non-regex path matching -/

/-- The code's gate order (length gate, loop, wildcard-position gate) is
equivalent to the claim's order (wildcard-position gate before the loop)
once both use the same segmentation. -/
theorem matchPathStd_eq_spec (requestPath routePath : String) :
    matchPathStd requestPath routePath =
      specMatchSegs (codeSegs requestPath) (codeSegs routePath) := by
  unfold matchPathStd specMatchSegs
  by_cases hc : (codeSegs routePath).contains "*"
  · simp only [hc, Bool.not_true, Bool.and_false, Bool.false_eq_true, if_false, if_true]
    cases hl : matchSegsLoop (codeSegs requestPath) (codeSegs routePath) [] <;>
      simp [hl, hc]
  · simp only [hc, Bool.not_false, Bool.and_true, Bool.false_eq_true, if_false]
    by_cases hlen : (codeSegs requestPath).length = (codeSegs routePath).length
    · cases hl : matchSegsLoop (codeSegs requestPath) (codeSegs routePath) [] <;>
        simp [hl, hc, hlen]
    · simp [hlen]

/-- C6 counterexample: the claim's segmentation — "split on `/` ignoring
leading/trailing empty segments" — gives request path `"/"` zero segments,
so route `"/\x7bid\x7d"` (one segment, no wildcard) must not match; the
code instead strips slashes and splits, giving one empty segment, and
matches with path params `\x7bid: ""\x7d`. -/
theorem c6_counterexample :
    matchPathStd "/" "/\x7bid\x7d" = some [("id", "")] ∧
    specMatchPathClaim "/" "/\x7bid\x7d" = none ∧
    matchPathStd "/" "/\x7bid\x7d" ≠ specMatchPathClaim "/" "/\x7bid\x7d" := by
  refine ⟨by decide, by decide, by decide⟩

/-- C6 amended: with segmentation "strip all leading and trailing `/`
characters, then split on `/`" (so an all-slash or empty path yields one
empty segment rather than none), non-regex path matching is exactly the
claim's algorithm: equal segment counts unless the route contains a `*`
segment; left-to-right comparison where `*` accepts and halts, `\x7bname\x7d`
captures the request segment as parameter `name`, and literals must match
exactly (case-sensitively); the wildcard's position must not exceed the
request's segment count.  In particular `/api/users/\x7bid\x7d` matches
`GET /api/users/42` with path params `\x7bid: "42"\x7d`. -/
theorem c6_amended_path_matching :
    ∀ (reMatch : String → String → Option (List (String × String)))
      (requestPath routePath : String),
      matchPath reMatch requestPath routePath false =
        specMatchSegs (codeSegs requestPath) (codeSegs routePath) ∧
      matchPath reMatch "/api/users/42" "/api/users/\x7bid\x7d" false =
        some [("id", "42")] := by
  intro reMatch requestPath routePath
  constructor
  · simpa [matchPath] using matchPathStd_eq_spec requestPath routePath
  · have h : matchPathStd "/api/users/42" "/api/users/\x7bid\x7d" = some [("id", "42")] := by
      decide
    simpa [matchPath] using h

/-! ## Claim C3 — response-sequence cycling -/

/-- When the sequencing guards all hold, `handleSequence` selects the
response at the cursor and advances the cursor cyclically. -/
theorem handleSequence_active (r : Route) (seqs : List RouteResponse)
    (hen : r.enableSequence = true) (hs : r.responseSequences = some seqs)
    (hlt : r.currentSequenceIndex < seqs.length) :
    handleSequence r =
      (seqs.get ⟨r.currentSequenceIndex, hlt⟩,
       { r with currentSequenceIndex := (r.currentSequenceIndex + 1) % seqs.length }) := by
  have hne : !seqs.isEmpty := by
    cases seqs with
    | nil => simp at hlt
    | cons a t => simp
  unfold handleSequence
  simp [hen, hs, hne, hlt]

/-- C3: for a route with sequencing enabled, a non-empty sequence list and
cursor 0, the `k`-th matched request (0-based) selects the response at
index `k mod N`; so the first `N` requests select indices `0, …, N−1` once
each in order and request `N` selects index 0 again.  After request `k`
the persisted cursor is `(k mod N) + 1 mod N`, and the save and
router-update events precede the response-generation event. -/
theorem c3_sequence_cycling (route : Route) (seqs : List RouteResponse)
    (hseq : route.responseSequences = some seqs) (hne : seqs ≠ [])
    (hen : route.enableSequence = true) (h0 : route.currentSequenceIndex = 0) :
    ∀ k : Nat,
      (runSeq route k).currentSequenceIndex = k % seqs.length ∧
      selectionAt route k = seqs.getD (k % seqs.length) route.response ∧
      (runSeq route (k + 1)).currentSequenceIndex = (k % seqs.length + 1) % seqs.length ∧
      seqTrace (runSeq route k) =
        [SeqEvent.saveRoute (runSeq route (k + 1)),
         SeqEvent.updateRouter (runSeq route (k + 1)),
         SeqEvent.generate (selectionAt route k)] := by
  have hpos : 0 < seqs.length := List.length_pos.mpr hne
  have inv : ∀ k : Nat,
      (runSeq route k).responseSequences = some seqs ∧
      (runSeq route k).enableSequence = true ∧
      (runSeq route k).response = route.response ∧
      (runSeq route k).currentSequenceIndex = k % seqs.length := by
    intro k
    induction k with
    | zero => exact ⟨hseq, hen, rfl, by simp [runSeq, h0]⟩
    | succ n ih =>
      obtain ⟨i1, i2, i3, i4⟩ := ih
      have hlt : (runSeq route n).currentSequenceIndex < seqs.length := by
        rw [i4]; exact Nat.mod_lt _ hpos
      have hstep := handleSequence_active (runSeq route n) seqs i2 i1 hlt
      refine ⟨?_, ?_, ?_, ?_⟩ <;>
        simp [runSeq, hstep, i1, i2, i3, i4, Nat.mod_add_mod]
  intro k
  obtain ⟨i1, i2, i3, i4⟩ := inv k
  have hlt : (runSeq route k).currentSequenceIndex < seqs.length := by
    rw [i4]; exact Nat.mod_lt _ hpos
  have hstep := handleSequence_active (runSeq route k) seqs i2 i1 hlt
  have hlt2 : k % seqs.length < seqs.length := Nat.mod_lt _ hpos
  have hsel : selectionAt route k = seqs.getD (k % seqs.length) route.response := by
    rw [selectionAt, hstep]
    simp [List.getD_eq_getElem?_getD, List.getElem?_eq_getElem hlt2, i4]
  have hactive : seqActive (runSeq route k) = true := by
    have hne2 : !seqs.isEmpty := by
      cases seqs with
      | nil => simp at hpos
      | cons a t => simp
    simp [seqActive, i1, i2, hlt, hne2]
  refine ⟨i4, hsel, ?_, ?_⟩
  · show (handleSequence (runSeq route k)).2.currentSequenceIndex = _
    rw [hstep]
    simp [i4, Nat.mod_add_mod]
  · have hrun : runSeq route (k + 1) =
        { runSeq route k with
          currentSequenceIndex := ((runSeq route k).currentSequenceIndex + 1) % seqs.length } := by
      show (handleSequence (runSeq route k)).2 = _
      rw [hstep]
    rw [seqTrace, hstep, hrun]
    simp [hactive, selectionAt, hstep]

/-- Witness for C3: the first three matched requests on a two-response
sequenced route select responses 1, 2, 1. -/
theorem c3_sequence_cycling_witness :
    selectionAt wSeqRoute 0 = wResp1 ∧ selectionAt wSeqRoute 1 = wResp2 ∧
    selectionAt wSeqRoute 2 = wResp1 := by
  have h := c3_sequence_cycling wSeqRoute [wResp1, wResp2] rfl (by simp) rfl rfl
  refine ⟨?_, ?_, ?_⟩
  · simpa using (h 0).2.1
  · simpa using (h 1).2.1
  · simpa using (h 2).2.1

/-! ## Claim C4 — the cursor invariant -/

/-- The matched-request step preserves the sequence list and either leaves
the cursor unchanged or advances it cyclically within the list. -/
theorem handleSequence_cursor (r : Route) :
    (handleSequence r).2.responseSequences = r.responseSequences ∧
    ((handleSequence r).2.currentSequenceIndex = r.currentSequenceIndex ∨
      ∃ seqs, r.responseSequences = some seqs ∧ 0 < seqs.length ∧
        (handleSequence r).2.currentSequenceIndex =
          (r.currentSequenceIndex + 1) % seqs.length) := by
  unfold handleSequence
  by_cases hen : r.enableSequence
  · cases hs : r.responseSequences with
    | none => simp [hen, hs]
    | some seqs =>
      by_cases hne : seqs.isEmpty
      · simp [hen, hs, hne]
      · by_cases hlt : r.currentSequenceIndex < seqs.length
        · simp only [hen, hs, hne, Bool.not_false, if_true, dif_pos hlt]
          refine ⟨trivial, Or.inr ⟨seqs, rfl, ?_, rfl⟩⟩
          cases seqs with
          | nil => simp at hne
          | cons a t => simp
        · simp [hen, hs, hne, hlt]
  · simp [hen]

/-- C4 counterexample: the invariant fails on a reachable state.  Create a
route with two sequenced responses (cursor 0), let one matched request
advance the cursor to 1, then admin-update the route replacing the
sequence list by a single-element list — `update_route_handler` copies
`current_sequence_index` unchanged, leaving cursor 1 with a length-1
list. -/
theorem c4_counterexample :
    ¬ ∀ (r : Route), Reachable r → ∀ l, r.responseSequences = some l → l ≠ [] →
        r.currentSequenceIndex < l.length := by
  intro h
  have h0 : Reachable
      (⟨"c4", true, wSeqRule, {}, some [wResp1, wResp2], true, 0, none⟩ : Route) :=
    Reachable.created "c4" wSeqRule {} (some [wResp1, wResp2]) true none
  have h1 := Reachable.advanced _ h0
  have h2 := Reachable.updated _ true wSeqRule {} (some [wResp1]) true none h1
  have h3 := h _ h2 [wResp1] rfl (by simp)
  exact absurd (show (1 : Nat) < 1 from h3) (by omega)

/-- C4 amended: the invariant `current_sequence_index ∈ [0,
len(response_sequences))` (for non-empty sequence lists) holds for every
state reachable via creation, reset and matched-request advances, and is
*preserved* by admin updates only under the proviso that an update
replacing the sequence list keeps the (unchanged) cursor within the new
list or empties it; an update shrinking the list to at most the cursor
violates the invariant.  The cursor is 0 immediately after creation and
after a reset. -/
theorem c4_amended_invariant :
    (∀ r, ReachableSafe r → ∀ l, r.responseSequences = some l → l ≠ [] →
        r.currentSequenceIndex < l.length) ∧
    (∀ (id : String) (mr : RouteMatchRule) (resp : RouteResponse)
        (seqs : Option (List RouteResponse)) (en : Bool) (vald : Option RouteValidator),
        (⟨id, true, mr, resp, seqs, en, 0, vald⟩ : Route).currentSequenceIndex = 0) ∧
    (∀ r : Route, ({ r with currentSequenceIndex := 0 } : Route).currentSequenceIndex = 0) := by
  refine ⟨?_, fun _ _ _ _ _ _ => rfl, fun _ => rfl⟩
  intro r hreach
  induction hreach with
  | created id mr resp seqs en vald =>
    intro l hl hne
    simpa using List.length_pos.mpr hne
  | updated r en' mr' resp' seqs' enSeq' vald' hr hguard ih =>
    intro l hl hne
    simp only at hl
    subst hl
    rcases hguard with hnil | hlt
    · exact absurd hnil hne
    · exact hlt
  | reset r hr ih =>
    intro l hl hne
    simpa using List.length_pos.mpr hne
  | advanced r hr ih =>
    intro l hl hne
    obtain ⟨hseqs, hcur⟩ := handleSequence_cursor r
    rw [hseqs] at hl
    rcases hcur with heq | ⟨seqs, hs, hpos, hadv⟩
    · rw [heq]
      exact ih l hl hne
    · rw [hs] at hl
      injection hl with hl
      subst hl
      rw [hadv]
      exact Nat.mod_lt _ hpos

/-- Witness for the amended C4: the freshly created two-response route
satisfies the invariant. -/
theorem c4_amended_invariant_witness : wSeqRoute.currentSequenceIndex < 2 := by
  have h := c4_amended_invariant.1
    (⟨"s", true, wSeqRule, {}, some [wResp1, wResp2], true, 0, none⟩ : Route)
    (ReachableSafe.created "s" wSeqRule {} (some [wResp1, wResp2]) true none)
    [wResp1, wResp2] rfl (by simp)
  simp [wSeqRoute]

/-! ## Claim C8 — required fields and the passing case -/

/-- Every member of a `", "`-joined list occurs verbatim in the joined
string. -/
theorem joinComma_data_decomp (l : List String) (f : String) (hf : f ∈ l) :
    ∃ pre post : List Char, (joinComma l).data = pre ++ f.data ++ post := by
  induction l with
  | nil => simp at hf
  | cons x t ih =>
    rcases List.mem_cons.mp hf with hx | ht
    · subst hx
      cases t with
      | nil => exact ⟨[], [], by simp [joinComma]⟩
      | cons y u =>
        refine ⟨[], (", " ++ joinComma (y :: u)).data, ?_⟩
        simp [joinComma]
    · cases t with
      | nil => simp at ht
      | cons y u =>
        obtain ⟨pre, post, hpp⟩ := ih ht
        refine ⟨x.data ++ (", " : String).data ++ pre, post, ?_⟩
        simp [joinComma, hpp]

/-- If every declared type constraint holds for the fields present in the
body, the `field_types` loop reports no error. -/
theorem typesLoop_none (bodyF : List (String × Value)) (fts : List (String × String))
    (h : ∀ f t val, (f, t) ∈ fts → lookupStr f bodyF = some val →
      validateType val t = true) : typesLoop bodyF fts = none := by
  induction fts with
  | nil => rfl
  | cons p rest ih =>
    obtain ⟨f, t⟩ := p
    have hrest : typesLoop bodyF rest = none :=
      ih fun f' t' val h1 h2 => h f' t' val (List.mem_cons_of_mem _ h1) h2
    cases hl : lookupStr f bodyF with
    | none => simp [typesLoop, hl, hrest]
    | some val =>
      have := h f t val (List.mem_cons_self _ _) hl
      simp [typesLoop, hl, this, hrest]

/-- If every declared range constraint holds for the fields present in the
body, the `field_ranges` loop reports no error. -/
theorem rangesLoop_none (bodyF : List (String × Value)) (frs : List (String × List Value))
    (h : ∀ f rng val, (f, rng) ∈ frs → lookupStr f bodyF = some val →
      validateRange val rng = true) : rangesLoop bodyF frs = none := by
  induction frs with
  | nil => rfl
  | cons p rest ih =>
    obtain ⟨f, rng⟩ := p
    have hrest : rangesLoop bodyF rest = none :=
      ih fun f' r' val h1 h2 => h f' r' val (List.mem_cons_of_mem _ h1) h2
    cases hl : lookupStr f bodyF with
    | none => simp [rangesLoop, hl, hrest]
    | some val =>
      have := h f rng val (List.mem_cons_self _ _) hl
      simp [rangesLoop, hl, this, hrest]

/-- C8: with a non-empty `required_fields` list, a null (or empty) body
fails with a message listing every required field, and a body lacking some
listed keys fails with a message listing each missing field; a body that
contains all required fields and satisfies every declared type and range
constraint passes (`(True, None)`) when `validate_jwt` is off. -/
theorem c8_required_fields_and_pass (verifyToken : String → Bool)
    (v : RouteValidator) (body : Option (List (String × Value)))
    (headers : Option (List (String × String))) :
    (∀ req, v.requiredFields = some req → req ≠ [] →
      (body = none ∨ body = some []) →
      ∃ msg, validateRequest verifyToken v body headers = (false, some msg) ∧
        ∀ f ∈ req, ∃ pre post : List Char, msg.data = pre ++ f.data ++ post) ∧
    (∀ req bf, v.requiredFields = some req → body = some bf →
      req.filter (fun f => !hasKey f bf) ≠ [] →
      ∃ msg, validateRequest verifyToken v body headers = (false, some msg) ∧
        ∀ f ∈ req.filter (fun f => !hasKey f bf),
          ∃ pre post : List Char, msg.data = pre ++ f.data ++ post) ∧
    (v.validateJwt = false →
      (∀ req, v.requiredFields = some req → ∀ f ∈ req,
        ∃ bf, body = some bf ∧ hasKey f bf = true) →
      (∀ fts f t val, v.fieldTypes = some fts → (f, t) ∈ fts →
        lookupStr f (body.getD []) = some val → validateType val t = true) →
      (∀ frs f rng val, v.fieldRanges = some frs → (f, rng) ∈ frs →
        lookupStr f (body.getD []) = some val → validateRange val rng = true) →
      validateRequest verifyToken v body headers = (true, none)) := by
  refine ⟨?_, ?_, ?_⟩
  · -- null or empty body
    intro req hreq hne hbody
    cases req with
    | nil => exact absurd rfl hne
    | cons r0 rt =>
      refine ⟨"请求体不能为空，缺少必填字段: " ++ joinComma (r0 :: rt), ?_, ?_⟩
      · have hrc : requiredCheck v body =
            some (false, some ("请求体不能为空，缺少必填字段: " ++ joinComma (r0 :: rt))) := by
          rcases hbody with h | h <;> subst h <;> simp [requiredCheck, hreq]
        simp [validateRequest, hrc]
      · intro f hf
        obtain ⟨pre, post, hpp⟩ := joinComma_data_decomp _ f hf
        exact ⟨("请求体不能为空，缺少必填字段: " : String).data ++ pre, post, by simp [hpp]⟩
  · -- missing required keys
    intro req bf hreq hbody hmiss
    subst hbody
    cases req with
    | nil => simp at hmiss
    | cons r0 rt =>
      by_cases hbe : bf = []
      · subst hbe
        have hfilter : (r0 :: rt).filter
            (fun f => !hasKey f ([] : List (String × Value))) = r0 :: rt := by
          simp [hasKey, lookupStr]
        refine ⟨"请求体不能为空，缺少必填字段: " ++ joinComma (r0 :: rt), ?_, ?_⟩
        · have hrc : requiredCheck v (some ([] : List (String × Value))) =
              some (false, some ("请求体不能为空，缺少必填字段: " ++ joinComma (r0 :: rt))) := by
            simp [requiredCheck, hreq]
          simp [validateRequest, hrc]
        · intro f hf
          rw [hfilter] at hf
          obtain ⟨pre, post, hpp⟩ := joinComma_data_decomp _ f hf
          exact ⟨("请求体不能为空，缺少必填字段: " : String).data ++ pre, post, by simp [hpp]⟩
      · have hbne : bf.isEmpty = false := by
          cases bf with
          | nil => exact absurd rfl hbe
          | cons a t => rfl
        have hfne : ((r0 :: rt).filter (fun f => !hasKey f bf)).isEmpty = false := by
          cases hc : (r0 :: rt).filter (fun f => !hasKey f bf) with
          | nil => exact absurd hc hmiss
          | cons a t => rfl
        refine ⟨"缺少必填字段: " ++
          joinComma ((r0 :: rt).filter (fun f => !hasKey f bf)), ?_, ?_⟩
        · have hrc : requiredCheck v (some bf) =
              some (false, some ("缺少必填字段: " ++
                joinComma ((r0 :: rt).filter (fun f => !hasKey f bf)))) := by
            simp [requiredCheck, hreq, hbne, hfne]
          simp [validateRequest, hrc]
        · intro f hf
          obtain ⟨pre, post, hpp⟩ := joinComma_data_decomp _ f hf
          exact ⟨("缺少必填字段: " : String).data ++ pre, post, by simp [hpp]⟩
  · -- passing case
    intro hjwt hreq hty hrg
    have hrc : requiredCheck v body = none := by
      cases hrf : v.requiredFields with
      | none => simp [requiredCheck, hrf]
      | some req =>
        cases req with
        | nil => simp [requiredCheck, hrf]
        | cons r0 rt =>
          obtain ⟨bf, hbf, hkey0⟩ := hreq _ hrf r0 (List.mem_cons_self _ _)
          have hbne : bf.isEmpty = false := by
            cases bf with
            | nil => simp [hasKey, lookupStr] at hkey0
            | cons a t => rfl
          have hmiss : (r0 :: rt).filter (fun f => !hasKey f bf) = [] := by
            apply List.filter_eq_nil_iff.mpr
            intro f hf
            obtain ⟨bf2, hbf2, hkeyf⟩ := hreq _ hrf f hf
            rw [hbf] at hbf2
            injection hbf2 with hbf2
            subst hbf2
            simp [hkeyf]
          simp [requiredCheck, hrf, hbf, hbne, hmiss]
    have htc : typesCheck v body = none := by
      cases hft : v.fieldTypes with
      | none => simp [typesCheck, hft]
      | some fts =>
        have h := typesLoop_none (body.getD []) fts
          fun f t val h1 h2 => hty fts f t val hft h1 h2
        simp [typesCheck, hft, h]
    have hrgc : rangesCheck v body = none := by
      cases hfr : v.fieldRanges with
      | none => simp [rangesCheck, hfr]
      | some frs =>
        have h := rangesLoop_none (body.getD []) frs
          fun f r val h1 h2 => hrg frs f r val hfr h1 h2
        simp [rangesCheck, hfr, h]
    simp [validateRequest, hrc, htc, hrgc, jwtCheck, hjwt]

/-- Witness for C8: a concrete rule with two required fields rejects a
body missing one of them, and accepts a complete, well-typed body. -/
theorem c8_required_fields_witness :
    (∃ msg, validateRequest (fun _ => true)
        { requiredFields := some ["name", "age"] }
        (some [("name", Value.str "a")]) none = (false, some msg) ∧
      ∀ f ∈ (["name", "age"] : List String).filter
          (fun f => !hasKey f [("name", Value.str "a")]),
        ∃ pre post : List Char, msg.data = pre ++ f.data ++ post) ∧
    validateRequest (fun _ => true)
        { requiredFields := some ["name"], fieldTypes := some [("name", "string")] }
        (some [("name", Value.str "a")]) none = (true, none) := by
  constructor
  · exact (c8_required_fields_and_pass (fun _ => true)
      { requiredFields := some ["name", "age"] }
      (some [("name", Value.str "a")]) none).2.1 ["name", "age"]
      [("name", Value.str "a")] rfl rfl (by decide)
  · exact (c8_required_fields_and_pass (fun _ => true)
      { requiredFields := some ["name"], fieldTypes := some [("name", "string")] }
      (some [("name", Value.str "a")]) none).2.2 rfl
      (by intro req h f hf; injection h with h; subst h;
          exact ⟨[("name", Value.str "a")], rfl, by simp at hf; subst hf; decide⟩)
      (by intro fts f t val h1 h2 h3; injection h1 with h1; subst h1;
          simp at h2; obtain ⟨h2a, h2b⟩ := h2; subst h2a; subst h2b;
          simp [lookupStr] at h3; subst h3; rfl)
      (by intro frs f rng val h1; simp at h1)

/-! ## Claim C7 — error-scenario simulation -/

/-- C7: when `simulate_error` is set and the uniform draw is ≤
`error_probability`, `generate_response` short-circuits with a canned,
untemplated response: `timeout` sleeps an additional fixed 30 seconds and
returns 408, `network_error` returns 503, `server_error` returns 500; in
particular with `error_type = "server_error"` and `error_probability =
1.0` every request (every draw in `[0,1)`) returns 500 with body
the JSON object with key `error` and value `Internal Server Error`. -/
theorem c7_error_simulation (genv : GenEnv) (r : RouteResponse) (ctx : Context)
    (hsim : r.simulateError = true) :
    (genv.errorRand ≤ r.errorProbability → r.errorType = some "timeout" →
      generateResponse genv r ctx =
        ((delaySim genv r).1 ++ [30],
         .ok ⟨408, .json (.obj [("error", .str "Request Timeout")]), [],
              (delaySim genv r).2 + 30⟩)) ∧
    (genv.errorRand ≤ r.errorProbability → r.errorType = some "network_error" →
      generateResponse genv r ctx =
        ((delaySim genv r).1,
         .ok ⟨503, .json (.obj [("error", .str "Service Unavailable")]), [],
              (delaySim genv r).2⟩)) ∧
    (genv.errorRand ≤ r.errorProbability → r.errorType = some "server_error" →
      generateResponse genv r ctx =
        ((delaySim genv r).1,
         .ok ⟨500, .json (.obj [("error", .str "Internal Server Error")]), [],
              (delaySim genv r).2⟩)) ∧
    (r.errorType = some "server_error" → r.errorProbability = 1 →
      genv.errorRand < 1 →
      generateResponse genv r ctx =
        ((delaySim genv r).1,
         .ok ⟨500, .json (.obj [("error", .str "Internal Server Error")]), [],
              (delaySim genv r).2⟩)) := by
  refine ⟨?_, ?_, ?_, ?_⟩
  · intro hp het
    unfold generateResponse
    simp [hsim, hp, het]
  · intro hp het
    unfold generateResponse
    simp [hsim, hp, het]
  · intro hp het
    unfold generateResponse
    simp [hsim, hp, het]
  · intro het hprob hlt
    have hp : genv.errorRand ≤ r.errorProbability := by
      rw [hprob]; exact le_of_lt hlt
    unfold generateResponse
    simp [hsim, hp, het]

/-- Witness for C7: with probability 1 and draw 1/2, the canned 500
response is produced with no sleeps and zero applied delay. -/
theorem c7_error_simulation_witness :
    generateResponse { errorRand := 1 / 2 } wErrResp [] =
      ([], .ok ⟨500, .json (.obj [("error", .str "Internal Server Error")]), [], 0⟩) := by
  have h := (c7_error_simulation { errorRand := 1 / 2 } wErrResp [] rfl).2.2.2
    rfl rfl (by norm_num)
  rw [h]
  norm_num [delaySim, wErrResp]

/-! ## Claim C5 — templating can raise -/

/-- C5: evaluation of the embedded templater at the failing input.  A
request context whose `body` is a JSON array — produced by `mock_handler`
for any request whose JSON body is a non-empty array, since
`context["body"] = body or \x7b\x7d` keeps truthy non-dict bodies — makes
`_render_string` call `.items()` on a list, raising `AttributeError`, for
any string content at all (here `"hello"`, which contains no
placeholder). -/
theorem c5_render_raises_on_array_body :
    renderResponse {} (.str "hello")
      [("body", Value.arr [Value.int 1, Value.int 2])] =
      .error .attributeError ∧
    renderString {} "hello" [("body", Value.arr [Value.int 1, Value.int 2])] =
      .error .attributeError := by
  have h : renderString {} "hello" [("body", Value.arr [Value.int 1, Value.int 2])] =
      .error .attributeError := rfl
  constructor
  · rw [renderResponse]
    simp [renderValue, h, Except.map]
  · exact h

/-! ## Claim C9 — rendering placeholder-free content -/

/-- A prefix of a prefix: `startsWithL hay (a ++ b)` entails
`startsWithL hay a`. -/
theorem startsWithL_append (a b hay : List Char)
    (h : startsWithL hay (a ++ b) = true) : startsWithL hay a = true := by
  induction a generalizing hay with
  | nil => cases hay <;> rfl
  | cons x xs ih =>
    cases hay with
    | nil => simp [startsWithL] at h
    | cons y ys =>
      simp only [List.cons_append, startsWithL, Bool.and_eq_true] at h ⊢
      exact ⟨h.1, ih ys h.2⟩

/-- Substring containment is monotone in needle prefixes. -/
theorem containsL_append (a b hay : List Char)
    (h : containsL hay (a ++ b) = true) : containsL hay a = true := by
  induction hay with
  | nil =>
    simp only [containsL] at h ⊢
    cases a with
    | nil => rfl
    | cons x xs => cases b <;> simp [startsWithL] at h
  | cons y ys ih =>
    simp only [containsL, Bool.or_eq_true] at h ⊢
    rcases h with h | h
    · exact Or.inl (startsWithL_append _ _ _ h)
    · exact Or.inr (ih h)

/-- If a string has no `\x7b\x7b`, it contains no string of the form
`\x7b\x7b ++ rest` either. -/
theorem pyIn_false_of_no_open (s ph : String)
    (h : pyIn "\x7b\x7b" s = false)
    (hph : ∃ rest, ph.data = ("\x7b\x7b" : String).data ++ rest) :
    pyIn ph s = false := by
  obtain ⟨rest, hrest⟩ := hph
  unfold pyIn at h ⊢
  rw [hrest]
  cases hc : containsL s.data (("\x7b\x7b" : String).data ++ rest) with
  | false => rfl
  | true => exact absurd (containsL_append _ _ _ hc) (by simp [h])

/-- A match of the placeholder regex starts with `\x7b\x7b`. -/
theorem parseDottedAt_none_of_no_open (l : List Char)
    (h : startsWithL l [braceOpen, braceOpen] = false) :
    parseDottedAt l = none := by
  cases l with
  | nil => rfl
  | cons c1 rest1 =>
    cases rest1 with
    | nil => rfl
    | cons c2 rest =>
      unfold parseDottedAt
      cases hb : (c1 == braceOpen && c2 == braceOpen) with
      | false => simp [hb]
      | true =>
        exfalso
        simp only [Bool.and_eq_true, beq_iff_eq] at hb
        simp [startsWithL, hb.1, hb.2] at h

/-- The dotted-placeholder scanner finds nothing in a string without
`\x7b\x7b`. -/
theorem scanDotted_nil (fuel : Nat) (l : List Char)
    (h : containsL l [braceOpen, braceOpen] = false) :
    scanDotted fuel l = [] := by
  induction fuel generalizing l with
  | zero => cases l <;> rfl
  | succ n ih =>
    cases l with
    | nil => rfl
    | cons x xs =>
      have hstarts : startsWithL (x :: xs) [braceOpen, braceOpen] = false := by
        cases hs : startsWithL (x :: xs) [braceOpen, braceOpen] with
        | false => rfl
        | true => simp [containsL, hs] at h
      have htail : containsL xs [braceOpen, braceOpen] = false := by
        cases ht : containsL xs [braceOpen, braceOpen] with
        | false => rfl
        | true => simp [containsL, ht] at h
      have hp := parseDottedAt_none_of_no_open _ hstarts
      simp only [scanDotted, hp]
      exact ih xs htail

/-- A builtin pass leaves a string without `\x7b\x7b` unchanged. -/
theorem builtinPass_unchanged (ph rep s : String)
    (h : pyIn "\x7b\x7b" s = false)
    (hph : ∃ rest, ph.data = ("\x7b\x7b" : String).data ++ rest) :
    builtinPass ph rep s = s := by
  unfold builtinPass
  rw [pyIn_false_of_no_open s ph h hph]
  rfl

/-- A simple-variable loop leaves a string without `\x7b\x7b`
unchanged. -/
theorem simpleLoop_unchanged (nsName s : String) (fields : List (String × Value))
    (h : pyIn "\x7b\x7b" s = false) :
    simpleLoop nsName s fields = s := by
  induction fields with
  | nil => rfl
  | cons kv rest ih =>
    obtain ⟨key, value⟩ := kv
    have hph : pyIn ("\x7b\x7b" ++ nsName ++ "." ++ key ++ "\x7d\x7d") s = false := by
      apply pyIn_false_of_no_open s _ h
      exact ⟨(nsName ++ "." ++ key ++ "\x7d\x7d").data, by
        simp [String.data_append, List.append_assoc]⟩
    rw [simpleLoop, hph]
    simpa using ih

/-- A simple-variable pass over a safe context returns a string without
`\x7b\x7b` unchanged. -/
theorem simplePass_unchanged (nsName s : String) (ctx : Context)
    (h : pyIn "\x7b\x7b" s = false)
    (hsafe : match lookupStr nsName ctx with
             | none => True
             | some (.obj _) => True
             | some _ => False) :
    simplePass nsName ctx s = .ok s := by
  unfold simplePass
  cases hl : lookupStr nsName ctx with
  | none => rfl
  | some v =>
    cases v with
    | obj fields => simp [simpleLoop_unchanged nsName s fields h]
    | str a => rw [hl] at hsafe; exact absurd hsafe (by simp)
    | int a => rw [hl] at hsafe; exact absurd hsafe (by simp)
    | float a => rw [hl] at hsafe; exact absurd hsafe (by simp)
    | bool a => rw [hl] at hsafe; exact absurd hsafe (by simp)
    | null => rw [hl] at hsafe; exact absurd hsafe (by simp)
    | arr a => rw [hl] at hsafe; exact absurd hsafe (by simp)

/-- Rendering a string without `\x7b\x7b` over a safe context returns it
unchanged. -/
theorem renderString_unchanged (env : TEnv) (s : String) (ctx : Context)
    (h : pyIn "\x7b\x7b" s = false) (hsafe : ctxSafe ctx = true) :
    renderString env s ctx = .ok s := by
  have hsafe3 : ∀ ns ∈ (["path", "query", "body"] : List String),
      (match lookupStr ns ctx with
       | none => True
       | some (.obj _) => True
       | some _ => False) := by
    intro ns hns
    have := List.all_eq_true.mp hsafe ns hns
    cases hl : lookupStr ns ctx with
    | none => trivial
    | some v => cases v <;> simp_all
  have hscan : scanDotted s.data.length s.data = [] := by
    apply scanDotted_nil
    exact h
  have hpath := simplePass_unchanged "path" s ctx h (hsafe3 "path" (by simp))
  have hquery := simplePass_unchanged "query" s ctx h (hsafe3 "query" (by simp))
  have hbody := simplePass_unchanged "body" s ctx h (hsafe3 "body" (by simp))
  have hb1 := builtinPass_unchanged "\x7b\x7brandom.int\x7d\x7d" (toString env.randInt) s h
    ⟨("random.int\x7d\x7d" : String).data, by decide⟩
  have hb2 := builtinPass_unchanged "\x7b\x7brandom.string\x7d\x7d" env.randString s h
    ⟨("random.string\x7d\x7d" : String).data, by decide⟩
  have hb3 := builtinPass_unchanged "\x7b\x7brandom.boolean\x7d\x7d"
    (if env.randBool then "True" else "False") s h
    ⟨("random.boolean\x7d\x7d" : String).data, by decide⟩
  have hb4 := builtinPass_unchanged "\x7b\x7btimestamp\x7d\x7d" (toString env.timestamp) s h
    ⟨("timestamp\x7d\x7d" : String).data, by decide⟩
  have hb5 := builtinPass_unchanged "\x7b\x7bnow\x7d\x7d" env.now s h
    ⟨("now\x7d\x7d" : String).data, by decide⟩
  unfold renderString
  simp only [hscan, complexPass, hpath, hquery, hbody, hb1, hb2, hb3, hb4, hb5]

mutual
/-- Rendering a value whose string leaves have no `\x7b\x7b` over a safe
context returns it unchanged. -/
theorem renderValue_unchanged (env : TEnv) (v : Value) (ctx : Context)
    (hv : noBraces v = true) (hctx : ctxSafe ctx = true) :
    renderValue env v ctx = .ok v := by
  cases v with
  | str s =>
    have hs : pyIn "\x7b\x7b" s = false := by
      simp only [noBraces, Bool.not_eq_true'] at hv
      exact hv
    simp [renderValue, renderString_unchanged env s ctx hs hctx, Except.map]
  | arr l =>
    have hl : noBracesList l = true := by simpa [noBraces] using hv
    simp [renderValue, renderList_unchanged env l ctx hl hctx, Except.map]
  | obj l =>
    have hl : noBracesFields l = true := by simpa [noBraces] using hv
    simp [renderValue, renderFields_unchanged env l ctx hl hctx, Except.map]
  | int n => simp [renderValue]
  | float q => simp [renderValue]
  | bool b => simp [renderValue]
  | null => simp [renderValue]
termination_by sizeOf v

/-- Element-wise version of `renderValue_unchanged`. -/
theorem renderList_unchanged (env : TEnv) (l : List Value) (ctx : Context)
    (hl : noBracesList l = true) (hctx : ctxSafe ctx = true) :
    renderList env l ctx = .ok l := by
  cases l with
  | nil => simp [renderList]
  | cons v rest =>
    simp only [noBracesList, Bool.and_eq_true] at hl
    have h1 := renderValue_unchanged env v ctx hl.1 hctx
    have h2 := renderList_unchanged env rest ctx hl.2 hctx
    simp [renderList, h1, h2, bind, Except.bind, pure, Except.pure]
termination_by sizeOf l

/-- Field-wise version of `renderValue_unchanged`. -/
theorem renderFields_unchanged (env : TEnv) (l : List (String × Value)) (ctx : Context)
    (hl : noBracesFields l = true) (hctx : ctxSafe ctx = true) :
    renderFields env l ctx = .ok l := by
  cases l with
  | nil => simp [renderFields]
  | cons kv rest =>
    have hl2 : noBraces kv.2 = true ∧ noBracesFields rest = true := by
      cases kv
      simpa [noBracesFields, Bool.and_eq_true] using hl
    have h1 := renderValue_unchanged env kv.2 ctx hl2.1 hctx
    have h2 := renderFields_unchanged env rest ctx hl2.2 hctx
    cases kv
    simp [renderFields, h1, h2, bind, Except.bind, pure, Except.pure]
termination_by sizeOf l
decreasing_by
  all_goals subst_vars
  all_goals try obtain ⟨k, v⟩ := kv
  all_goals simp
  all_goals omega
end

/-- Successful field-wise rendering preserves the keys (and order and
count) of a dict. -/
theorem renderFields_keys (env : TEnv) (fields : List (String × Value)) (ctx : Context)
    (out : List (String × Value)) (h : renderFields env fields ctx = .ok out) :
    out.map Prod.fst = fields.map Prod.fst := by
  induction fields generalizing out with
  | nil =>
    simp only [renderFields] at h
    cases h
    rfl
  | cons kv rest ih =>
    obtain ⟨k, v⟩ := kv
    simp only [renderFields] at h
    cases h1 : renderValue env v ctx with
    | error e => rw [h1] at h; simp [bind, Except.bind] at h
    | ok v2 =>
      rw [h1] at h
      cases h2 : renderFields env rest ctx with
      | error e => rw [h2] at h; simp [bind, Except.bind] at h
      | ok rest2 =>
        rw [h2] at h
        simp only [bind, Except.bind, pure, Except.pure] at h
        cases h
        simp [ih rest2 h2]

/-- Successful element-wise rendering preserves the length of a list. -/
theorem renderList_length (env : TEnv) (elems : List Value) (ctx : Context)
    (out : List Value) (h : renderList env elems ctx = .ok out) :
    out.length = elems.length := by
  induction elems generalizing out with
  | nil =>
    simp only [renderList] at h
    cases h
    rfl
  | cons v rest ih =>
    simp only [renderList] at h
    cases h1 : renderValue env v ctx with
    | error e => rw [h1] at h; simp [bind, Except.bind] at h
    | ok v2 =>
      rw [h1] at h
      cases h2 : renderList env rest ctx with
      | error e => rw [h2] at h; simp [bind, Except.bind] at h
      | ok rest2 =>
        rw [h2] at h
        simp only [bind, Except.bind, pure, Except.pure] at h
        cases h
        simp [ih rest2 h2]

/-- C9 counterexample: the content `"x"` has no placeholder of any form,
yet `render` does not return it unchanged for the (reachable) context
whose `body` entry is a JSON array — it raises `AttributeError`. -/
theorem c9_counterexample :
    renderResponse {} (.str "x") [("body", Value.arr [])] = .error .attributeError ∧
    renderResponse {} (.str "x") [("body", Value.arr [])] ≠ .ok (.str "x") ∧
    noBraces (.str "x") = true := by
  have h : renderString {} "x" [("body", Value.arr [])] = .error .attributeError := rfl
  have hr : renderResponse {} (.str "x") [("body", Value.arr [])] =
      .error .attributeError := by
    rw [renderResponse]
    simp [renderValue, h, Except.map]
  refine ⟨hr, by rw [hr]; simp, ?_⟩
  simp only [noBraces]
  decide

/-- C9 amended: for content none of whose string leaves contains the
placeholder opener `\x7b\x7b` (in particular, plain data with no
placeholder substrings of any form), and for every context whose `path`,
`query` and `body` entries — when present — are objects (the condition the
raising counterexample forces), rendering returns the content unchanged.
Rendering recurses through objects and arrays preserving structure, and
every non-string leaf passes through unchanged for *every* context. -/
theorem c9_render_plain_data (env : TEnv) (content : Value) (ctx : Context)
    (hv : noBraces content = true) (hctx : ctxSafe ctx = true) :
    renderResponse env content ctx = .ok content ∧
    (∀ (n : Int) (ctx2 : Context), renderValue env (.int n) ctx2 = .ok (.int n)) ∧
    (∀ (b : Bool) (ctx2 : Context), renderValue env (.bool b) ctx2 = .ok (.bool b)) ∧
    (∀ (q : Rat) (ctx2 : Context), renderValue env (.float q) ctx2 = .ok (.float q)) ∧
    (∀ ctx2 : Context, renderValue env .null ctx2 = .ok .null) ∧
    (∀ fields (ctx2 : Context) out, renderValue env (.obj fields) ctx2 = .ok out →
      ∃ fields2, out = .obj fields2 ∧ fields2.map Prod.fst = fields.map Prod.fst) ∧
    (∀ elems (ctx2 : Context) out, renderValue env (.arr elems) ctx2 = .ok out →
      ∃ elems2, out = .arr elems2 ∧ elems2.length = elems.length) := by
  refine ⟨renderValue_unchanged env content ctx hv hctx,
    fun n ctx2 => by simp [renderValue],
    fun b ctx2 => by simp [renderValue],
    fun q ctx2 => by simp [renderValue],
    fun ctx2 => by simp [renderValue],
    ?_, ?_⟩
  · intro fields ctx2 out h
    simp only [renderValue] at h
    cases h2 : renderFields env fields ctx2 with
    | error e => rw [h2] at h; simp [Except.map] at h
    | ok fields2 =>
      rw [h2] at h
      simp only [Except.map] at h
      cases h
      exact ⟨fields2, rfl, renderFields_keys env fields ctx2 fields2 h2⟩
  · intro elems ctx2 out h
    simp only [renderValue] at h
    cases h2 : renderList env elems ctx2 with
    | error e => rw [h2] at h; simp [Except.map] at h
    | ok elems2 =>
      rw [h2] at h
      simp only [Except.map] at h
      cases h
      exact ⟨elems2, rfl, renderList_length env elems ctx2 elems2 h2⟩

/-- Witness for the amended C9: a concrete placeholder-free object renders
unchanged against a concrete safe context. -/
theorem c9_render_plain_data_witness :
    renderResponse {} (.obj [("msg", .str "Hello"), ("n", .int 3)])
      [("body", Value.obj [("name", Value.str "Ann")])] =
      .ok (.obj [("msg", .str "Hello"), ("n", .int 3)]) := by
  have hnb : noBraces (.obj [("msg", .str "Hello"), ("n", .int 3)]) = true := by
    simp only [noBraces, noBracesFields, noBracesList, Bool.and_eq_true]
    refine ⟨by decide, by decide, trivial⟩
  exact (c9_render_plain_data {} (.obj [("msg", .str "Hello"), ("n", .int 3)])
    [("body", Value.obj [("name", Value.str "Ann")])] hnb (by decide)).1

/-! ## Claim C1 — the matcher selects the best full match

The sort key order `routeKeyLe` (ascending Python tuple
`(-specificity, id)`) is total and transitive; `sortRoutes` produces a
`Pairwise`-ordered permutation; the scan returns the first full match,
which is therefore `routeKeyLe`-below every other full match. -/

/-- Python string `<` is irreflexive. -/
theorem strLtL_irrefl (a : List Char) : strLtL a a = false := by
  induction a with
  | nil => rfl
  | cons x xs ih => simp [strLtL, lt_irrefl, ih]

/-- Python string `<` is total up to equality. -/
theorem strLtL_total (a b : List Char) :
    strLtL a b = true ∨ strLtL b a = true ∨ a = b := by
  induction a generalizing b with
  | nil =>
    cases b with
    | nil => exact Or.inr (Or.inr rfl)
    | cons y ys => exact Or.inl rfl
  | cons x xs ih =>
    cases b with
    | nil => exact Or.inr (Or.inl rfl)
    | cons y ys =>
      rcases lt_trichotomy x y with hxy | hxy | hxy
      · exact Or.inl (by simp [strLtL, hxy])
      · subst hxy
        rcases ih ys with h | h | h
        · exact Or.inl (by simp [strLtL, lt_irrefl, h])
        · exact Or.inr (Or.inl (by simp [strLtL, lt_irrefl, h]))
        · exact Or.inr (Or.inr (by rw [h]))
      · exact Or.inr (Or.inl (by simp [strLtL, hxy]))

/-- Python string `<` is transitive. -/
theorem strLtL_trans (a b c : List Char) (h1 : strLtL a b = true)
    (h2 : strLtL b c = true) : strLtL a c = true := by
  induction a generalizing b c with
  | nil =>
    cases c with
    | nil =>
      cases b with
      | nil => exact h1
      | cons y ys => simp [strLtL] at h2
    | cons z zs => rfl
  | cons x xs ih =>
    cases b with
    | nil => simp [strLtL] at h1
    | cons y ys =>
      cases c with
      | nil => simp [strLtL] at h2
      | cons z zs =>
        simp only [strLtL] at h1 h2 ⊢
        by_cases hxy : x < y
        · by_cases hyz : y < z
          · simp [lt_trans hxy hyz]
          · by_cases hzy : z < y
            · simp [hyz, hzy] at h2
            · have hyzeq : y = z := le_antisymm (not_lt.mp hzy) (not_lt.mp hyz)
              subst hyzeq
              simp [hxy]
        · by_cases hyx : y < x
          · simp [hxy, hyx] at h1
          · have hxyeq : x = y := le_antisymm (not_lt.mp hyx) (not_lt.mp hxy)
            subst hxyeq
            simp only [lt_irrefl, if_false] at h1
            by_cases hyz : x < z
            · simp [hyz]
            · by_cases hzy : z < x
              · simp [hyz, hzy] at h2
              · have : x = z := le_antisymm (not_lt.mp hzy) (not_lt.mp hyz)
                subst this
                simp only [lt_irrefl, if_false] at h2 ⊢
                exact ih ys zs h1 h2

/-- Python string `<` is asymmetric. -/
theorem strLtL_asymm (a b : List Char) (h : strLtL a b = true) :
    strLtL b a = false := by
  cases hc : strLtL b a with
  | false => rfl
  | true =>
    have := strLtL_trans a b a h hc
    rw [strLtL_irrefl] at this
    cases this

/-- The route sort key order is reflexive. -/
theorem routeKeyLe_refl (a : Route) : routeKeyLe a a = true := by
  simp [routeKeyLe]

/-- The route sort key order is total. -/
theorem routeKeyLe_total (a b : Route) :
    routeKeyLe a b = true ∨ routeKeyLe b a = true := by
  rcases lt_trichotomy (routeSpecificity a.matchRule) (routeSpecificity b.matchRule)
    with h | h | h
  · exact Or.inr (by simp [routeKeyLe, h])
  · rcases strLtL_total a.id.data b.id.data with hs | hs | hs
    · exact Or.inl (by simp [routeKeyLe, pyStrLt, h, hs])
    · exact Or.inr (by simp [routeKeyLe, pyStrLt, h, hs])
    · have hid : a.id = b.id := String.ext hs
      exact Or.inl (by simp [routeKeyLe, pyStrLt, h, hid])
  · exact Or.inl (by simp [routeKeyLe, h])

/-- The route sort key order is transitive. -/
theorem routeKeyLe_trans (a b c : Route) (h1 : routeKeyLe a b = true)
    (h2 : routeKeyLe b c = true) : routeKeyLe a c = true := by
  simp only [routeKeyLe, Bool.or_eq_true, Bool.and_eq_true, decide_eq_true_eq,
    beq_iff_eq] at h1 h2 ⊢
  rcases h1 with h1 | ⟨h1e, h1s⟩
  · rcases h2 with h2 | ⟨h2e, h2s⟩
    · exact Or.inl (lt_trans h2 h1)
    · exact Or.inl (h2e ▸ h1)
  · rcases h2 with h2 | ⟨h2e, h2s⟩
    · exact Or.inl (by rw [h1e]; exact h2)
    · refine Or.inr ⟨h1e.trans h2e, ?_⟩
      rcases h1s with h1s | h1s
      · rcases h2s with h2s | h2s
        · exact Or.inl (strLtL_trans _ _ _ h1s h2s)
        · exact Or.inl (h2s ▸ h1s)
      · rcases h2s with h2s | h2s
        · exact Or.inl (by rw [h1s] at *; exact h2s)
        · exact Or.inr (h1s.trans h2s)

/-- Membership in an ordered insertion. -/
theorem mem_insertRoute (x a : Route) (l : List Route) :
    x ∈ insertRoute a l ↔ x = a ∨ x ∈ l := by
  induction l with
  | nil => simp [insertRoute]
  | cons y t ih =>
    cases hc : routeKeyLe y a with
    | true =>
      simp only [insertRoute, hc, if_true, List.mem_cons, ih]
      tauto
    | false =>
      simp only [insertRoute, hc, Bool.false_eq_true, if_false, List.mem_cons]

/-- Ordered insertion preserves `Pairwise` ordering. -/
theorem pairwise_insertRoute (a : Route) (l : List Route)
    (h : l.Pairwise (fun x y => routeKeyLe x y = true)) :
    (insertRoute a l).Pairwise (fun x y => routeKeyLe x y = true) := by
  induction l with
  | nil => simp [insertRoute]
  | cons y t ih =>
    rcases List.pairwise_cons.mp h with ⟨hy, ht⟩
    cases hc : routeKeyLe y a with
    | true =>
      simp only [insertRoute, hc, if_true]
      refine List.pairwise_cons.mpr ⟨?_, ih ht⟩
      intro z hz
      rcases (mem_insertRoute z a t).mp hz with hz | hz
      · subst hz; exact hc
      · exact hy z hz
    | false =>
      simp only [insertRoute, hc, Bool.false_eq_true, if_false]
      have hay : routeKeyLe a y = true := by
        rcases routeKeyLe_total y a with h' | h'
        · exact absurd h' (by simp [hc])
        · exact h'
      refine List.pairwise_cons.mpr ⟨?_, h⟩
      intro z hz
      rcases List.mem_cons.mp hz with hz | hz
      · subst hz; exact hay
      · exact routeKeyLe_trans a y z hay (hy z hz)

/-- `sortRoutes` preserves membership. -/
theorem mem_sortRoutes (x : Route) (l : List Route) :
    x ∈ sortRoutes l ↔ x ∈ l := by
  induction l with
  | nil => simp [sortRoutes]
  | cons y t ih => simp [sortRoutes, mem_insertRoute, ih]

/-- `sortRoutes` produces a `routeKeyLe`-ordered list. -/
theorem pairwise_sortRoutes (l : List Route) :
    (sortRoutes l).Pairwise (fun x y => routeKeyLe x y = true) := by
  induction l with
  | nil => simp [sortRoutes]
  | cons y t ih => exact pairwise_insertRoute y (sortRoutes t) ih

/-- One step of the candidate loop: a non-full-matching head is skipped, a
full-matching head wins with its extracted path params. -/
theorem scanRoutes_cons (reMatch : String → String → Option (List (String × String)))
    (method path : String) (headers queryParams : List (String × String))
    (body : Option Value) (r : Route) (rest : List Route) :
    (fullMatch reMatch method path headers queryParams body r = false →
      scanRoutes reMatch method path headers queryParams body (r :: rest) =
        scanRoutes reMatch method path headers queryParams body rest) ∧
    (fullMatch reMatch method path headers queryParams body r = true →
      ∃ pp, matchPath reMatch path r.matchRule.path r.matchRule.useRegex = some pp ∧
        scanRoutes reMatch method path headers queryParams body (r :: rest) =
          some (r, pp)) := by
  cases hm : r.matchRule.methods.contains method with
  | false =>
    have hm2 : method ∉ r.matchRule.methods := by simpa using hm
    constructor
    · intro _
      simp [scanRoutes, hm, hm2]
    · intro hf
      rw [fullMatch, hm] at hf
      simp at hf
  | true =>
    have hm2 : method ∈ r.matchRule.methods := by simpa using hm
    cases hp : matchPath reMatch path r.matchRule.path r.matchRule.useRegex with
    | none =>
      constructor
      · intro _
        simp [scanRoutes, hm, hm2, hp]
      · intro hf
        rw [fullMatch, hp] at hf
        simp [hm] at hf
    | some pp =>
      cases hh : matchHeaders headers r.matchRule.headers with
      | false =>
        constructor
        · intro _
          simp [scanRoutes, hm, hm2, hp, hh]
        · intro hf
          rw [fullMatch, hh] at hf
          simp at hf
      | true =>
        cases hq : matchQueryParams queryParams r.matchRule.queryParams with
        | false =>
          constructor
          · intro _
            simp [scanRoutes, hm, hm2, hp, hh, hq]
          · intro hf
            rw [fullMatch, hq] at hf
            simp at hf
        | true =>
          cases hb : matchBody body r.matchRule.body with
          | false =>
            constructor
            · intro _
              simp [scanRoutes, hm, hm2, hp, hh, hq, hb]
            · intro hf
              rw [fullMatch, hb] at hf
              simp at hf
          | true =>
            constructor
            · intro hf
              rw [fullMatch, hm, hh, hq, hb, hp] at hf
              simp at hf
            · intro _
              exact ⟨pp, rfl, by simp [scanRoutes, hm, hm2, hp, hh, hq, hb]⟩

/-- The scan's result is a full-matching member of the list with the
path params extracted by `_match_path`. -/
theorem scanRoutes_some (reMatch : String → String → Option (List (String × String)))
    (method path : String) (headers queryParams : List (String × String))
    (body : Option Value) (l : List Route) (r : Route) (pp : List (String × String))
    (h : scanRoutes reMatch method path headers queryParams body l = some (r, pp)) :
    r ∈ l ∧ fullMatch reMatch method path headers queryParams body r = true ∧
      matchPath reMatch path r.matchRule.path r.matchRule.useRegex = some pp := by
  induction l with
  | nil => simp [scanRoutes] at h
  | cons y t ih =>
    cases hf : fullMatch reMatch method path headers queryParams body y with
    | false =>
      rw [(scanRoutes_cons reMatch method path headers queryParams body y t).1 hf] at h
      obtain ⟨h1, h2, h3⟩ := ih h
      exact ⟨List.mem_cons_of_mem _ h1, h2, h3⟩
    | true =>
      obtain ⟨pp2, hpath, hscan⟩ :=
        (scanRoutes_cons reMatch method path headers queryParams body y t).2 hf
      rw [hscan] at h
      injection h with h
      rw [Prod.mk.injEq] at h
      obtain ⟨hr, hppeq⟩ := h
      subst hr
      subst hppeq
      exact ⟨List.mem_cons_self _ _, hf, hpath⟩

/-- A failed scan means no candidate fully matches. -/
theorem scanRoutes_none (reMatch : String → String → Option (List (String × String)))
    (method path : String) (headers queryParams : List (String × String))
    (body : Option Value) (l : List Route)
    (h : scanRoutes reMatch method path headers queryParams body l = none) :
    ∀ x ∈ l, fullMatch reMatch method path headers queryParams body x = false := by
  induction l with
  | nil => simp
  | cons y t ih =>
    intro x hx
    cases hf : fullMatch reMatch method path headers queryParams body y with
    | true =>
      obtain ⟨pp2, _, hscan⟩ :=
        (scanRoutes_cons reMatch method path headers queryParams body y t).2 hf
      rw [hscan] at h
      cases h
    | false =>
      rw [(scanRoutes_cons reMatch method path headers queryParams body y t).1 hf] at h
      rcases List.mem_cons.mp hx with hx | hx
      · subst hx; exact hf
      · exact ih h x hx

/-- On a `routeKeyLe`-ordered candidate list, the scan's winner is
`routeKeyLe`-below every full-matching candidate. -/
theorem scanRoutes_first (reMatch : String → String → Option (List (String × String)))
    (method path : String) (headers queryParams : List (String × String))
    (body : Option Value) (l : List Route) (r : Route) (pp : List (String × String))
    (hpw : l.Pairwise (fun x y => routeKeyLe x y = true))
    (h : scanRoutes reMatch method path headers queryParams body l = some (r, pp)) :
    ∀ x ∈ l, fullMatch reMatch method path headers queryParams body x = true →
      routeKeyLe r x = true := by
  induction l with
  | nil => simp [scanRoutes] at h
  | cons y t ih =>
    rcases List.pairwise_cons.mp hpw with ⟨hy, ht⟩
    cases hf : fullMatch reMatch method path headers queryParams body y with
    | true =>
      obtain ⟨pp2, _, hscan⟩ :=
        (scanRoutes_cons reMatch method path headers queryParams body y t).2 hf
      rw [hscan] at h
      injection h with h
      rw [Prod.mk.injEq] at h
      obtain ⟨hr, _⟩ := h
      subst hr
      intro x hx _
      rcases List.mem_cons.mp hx with hx | hx
      · subst hx; exact routeKeyLe_refl _
      · exact hy x hx
    | false =>
      rw [(scanRoutes_cons reMatch method path headers queryParams body y t).1 hf] at h
      intro x hx hfx
      rcases List.mem_cons.mp hx with hx | hx
      · subst hx; rw [hf] at hfx; cases hfx
      · exact ih ht h x hx hfx

/-- C1: whenever `match_route` returns a route, that route is an enabled
full match whose path params come from `_match_path`, and every other
enabled fully-matching route has strictly lower specificity, or equal
specificity and a route id that is not lexicographically smaller; and
whenever some enabled route fully matches, `match_route` returns a
match.  (Candidates are scanned in descending-specificity order with route
id as ascending tie-break, stopping at the first route whose predicates
all pass in the order method, path, headers, query, body — the order
embodied in `fullMatch`/`scanRoutes`.) -/
theorem c1_matcher_selects_best
    (reMatch : String → String → Option (List (String × String)))
    (routes : List Route) (method path : String)
    (headers queryParams : List (String × String)) (body : Option Value) :
    (∀ r pp, matchRoute reMatch routes method path headers queryParams body =
        some (r, pp) →
      r ∈ routes ∧ r.enabled = true ∧
      fullMatch reMatch method path headers queryParams body r = true ∧
      matchPath reMatch path r.matchRule.path r.matchRule.useRegex = some pp ∧
      ∀ r2 ∈ routes, r2.enabled = true →
        fullMatch reMatch method path headers queryParams body r2 = true →
        routeSpecificity r2.matchRule < routeSpecificity r.matchRule ∨
          (routeSpecificity r2.matchRule = routeSpecificity r.matchRule ∧
            (pyStrLt r.id r2.id = true ∨ r.id = r2.id))) ∧
    ((∃ r2 ∈ routes, r2.enabled = true ∧
        fullMatch reMatch method path headers queryParams body r2 = true) →
      ∃ rp, matchRoute reMatch routes method path headers queryParams body = some rp) := by
  constructor
  · intro r pp h
    rw [matchRoute] at h
    have hmem0 := scanRoutes_some reMatch method path headers queryParams body _ r pp h
    have hmem : r ∈ routes.filter (·.enabled) := (mem_sortRoutes _ _).mp hmem0.1
    have hmem2 := List.mem_filter.mp hmem
    refine ⟨hmem2.1, by simpa using hmem2.2, hmem0.2.1, hmem0.2.2, ?_⟩
    intro r2 hr2 hen2 hf2
    have hr2s : r2 ∈ sortRoutes (routes.filter (·.enabled)) :=
      (mem_sortRoutes _ _).mpr (List.mem_filter.mpr ⟨hr2, by simpa using hen2⟩)
    have hkey := scanRoutes_first reMatch method path headers queryParams body _ r pp
      (pairwise_sortRoutes _) h r2 hr2s hf2
    rw [routeKeyLe] at hkey
    simp only [Bool.or_eq_true, Bool.and_eq_true, decide_eq_true_eq, beq_iff_eq] at hkey
    rcases hkey with hkey | ⟨hkeq, hkid⟩
    · exact Or.inl hkey
    · exact Or.inr ⟨hkeq.symm, by
        rcases hkid with hkid | hkid
        · exact Or.inl hkid
        · exact Or.inr hkid⟩
  · rintro ⟨r2, hr2, hen2, hf2⟩
    rw [matchRoute]
    cases hscan : scanRoutes reMatch method path headers queryParams body
        (sortRoutes (routes.filter (·.enabled))) with
    | some rp => exact ⟨rp, rfl⟩
    | none =>
      have hr2s : r2 ∈ sortRoutes (routes.filter (·.enabled)) :=
        (mem_sortRoutes _ _).mpr (List.mem_filter.mpr ⟨hr2, by simpa using hen2⟩)
      have := scanRoutes_none reMatch method path headers queryParams body _ hscan r2 hr2s
      rw [hf2] at this
      cases this

/-- Witness for C1: with both witness routes fully matching
`GET /api/users/42`, the matcher's winner (route `b`) beats route `a` on
specificity or on the id tie-break. -/
theorem c1_matcher_selects_best_witness :
    wRouteB ∈ [wRouteA, wRouteB] ∧ wRouteB.enabled = true ∧
    (routeSpecificity wRouteA.matchRule < routeSpecificity wRouteB.matchRule ∨
      (routeSpecificity wRouteA.matchRule = routeSpecificity wRouteB.matchRule ∧
        (pyStrLt wRouteB.id wRouteA.id = true ∨ wRouteB.id = wRouteA.id))) := by
  have hA : routeSpecificity wRouteA.matchRule = -1 / 2 := by
    have h1 : (splitChar '/' ("/api/\x7bname\x7d/\x7bid\x7d" : String).data).length = 4 := by
      decide
    have h2 : countChar braceOpen ("/api/\x7bname\x7d/\x7bid\x7d" : String).data = 2 := by
      decide
    have h3 : countChar '*' ("/api/\x7bname\x7d/\x7bid\x7d" : String).data = 0 := by decide
    simp only [wRouteA, routeSpecificity, h1, h2, h3]
    norm_num
  have hB : routeSpecificity wRouteB.matchRule = 3 / 2 := by
    have h1 : (splitChar '/' ("/api/users/\x7bid\x7d" : String).data).length = 4 := by decide
    have h2 : countChar braceOpen ("/api/users/\x7bid\x7d" : String).data = 1 := by decide
    have h3 : countChar '*' ("/api/users/\x7bid\x7d" : String).data = 0 := by decide
    simp only [wRouteB, routeSpecificity, h1, h2, h3]
    norm_num
  have hkey : routeKeyLe wRouteB wRouteA = true := by
    rw [routeKeyLe, hA, hB]
    norm_num
  have hfilter : ([wRouteA, wRouteB] : List Route).filter (·.enabled) =
      [wRouteA, wRouteB] := rfl
  have hsort : sortRoutes [wRouteA, wRouteB] = [wRouteB, wRouteA] := by
    show insertRoute wRouteA (insertRoute wRouteB []) = [wRouteB, wRouteA]
    show insertRoute wRouteA [wRouteB] = [wRouteB, wRouteA]
    rw [insertRoute, if_pos hkey]
    rfl
  have hscan : scanRoutes (fun _ _ => none) "GET" "/api/users/42" [] [] none
      [wRouteB, wRouteA] = some (wRouteB, [("id", "42")]) := rfl
  have hmatch : matchRoute (fun _ _ => none) [wRouteA, wRouteB] "GET" "/api/users/42"
      [] [] none = some (wRouteB, [("id", "42")]) := by
    rw [matchRoute, hfilter, hsort]
    exact hscan
  have h := (c1_matcher_selects_best (fun _ _ => none) [wRouteA, wRouteB] "GET"
    "/api/users/42" [] [] none).1 wRouteB [("id", "42")] hmatch
  exact ⟨h.1, h.2.1, h.2.2.2.2 wRouteA (by simp) rfl rfl⟩

end MockServer
